import Mathlib

/-!
A shallow embedding, in Lean 4, of the HVM C runtime found in
`src/examples/fft/complex_fft.c` (the generated runtime template plus the
generated rewrite rules of the complex-FFT example), together with theorems
settling the specification claims about it.

Modelling conventions:
* The 64-bit heap words ("links", C type `Ptr = u64`) are `Nat` with explicit
  `% 2^64` / masking where C overflow semantics matter.
* The shared heap `u64* node` is a total function `Nat → Nat`; a write is a
  pointwise functional update (`hset`).
* The C `Stk` stacks are `List Nat` with the head as the most recently pushed
  element (`stk_push` conses, `stk_pop` takes the head, as the C code pushes
  and pops at `data[size]`).
* The per-dup-node atomic lock flag (a test-and-set on byte 6 of slot 0 of the
  3-word duplication block) is modelled as a ghost map `lock : Nat → Bool`
  keyed by the block's base address; the C flag occupies bits of the slot-0
  word that all decoders (`get_tag`/`get_val`) of the slot's ARG/ERA payload
  ignore, so keeping it out of `node` does not change any observed value.
* C code paths whose behaviour the C standard leaves undefined (division or
  modulo by zero, shifts by 64 or more) and loops that the graph could make
  non-terminating are modelled with `Option`: `none` means "no defined
  result".  Recursion uses explicit fuel, and theorems quantify over or fix
  the fuel.
* The pthread fork/join hand-off of `normal_go` is modelled sequentially (the
  forked child's `normal_go` runs to completion at the fork point, on the same
  state); every theorem below only exercises executions in which the C code
  takes the serial branch (`slen = 1` or fewer than 2 child positions), where
  this modelling is exact.
-/

namespace HVM

/-- A link (C `Ptr`), a 64-bit word. -/
abbrev Ptr := Nat

/-! ## Constants (C lines 37-123) -/

/-- `#define HEAP_SIZE 4294967296` (bytes). -/
def HEAP_SIZE : Nat := 4294967296

/-- `#define MAX_WORKERS (12)` (the `PARALLEL` build). -/
def MAX_WORKERS : Nat := 12

/-- `#define MAX_DUPS (16777216)` -/
def MAX_DUPS : Nat := 16777216

/-- `#define MAX_ARITY (256)` -/
def MAX_ARITY : Nat := 256

/-- `#define MEM_SPACE (HEAP_SIZE/sizeof(u64)/MAX_WORKERS)`, in 64-bit words. -/
def MEM_SPACE : Nat := HEAP_SIZE / 8 / MAX_WORKERS

/-- `#define DIRS_MCAP (0x10000)` -/
def DIRS_MCAP : Nat := 0x10000

/-- `#define VAL ((u64) 1)` -/
def VAL : Nat := 1

/-- `#define EXT ((u64) 0x100000000)` -/
def EXT : Nat := 0x100000000

/-- `#define TAG ((u64) 0x1000000000000000)` -/
def TAG : Nat := 0x1000000000000000

/-- `#define NUM_MASK ((u64) 0xFFFFFFFFFFFFFFF)` (2^60 - 1). -/
def NUM_MASK : Nat := 0xFFFFFFFFFFFFFFF

/-- 2^64, the wrap-around modulus of C `u64` arithmetic. -/
def U64M : Nat := 18446744073709551616

/-- Tag nibbles, C lines 80-93. -/
def DP0 : Nat := 0x0
def DP1 : Nat := 0x1
def VAR : Nat := 0x2
def ARG : Nat := 0x3
def ERA : Nat := 0x4
def LAM : Nat := 0x5
def APP : Nat := 0x6
def SUP : Nat := 0x7
def CTR : Nat := 0x8
def FUN : Nat := 0x9
def OP2 : Nat := 0xA
def NUM : Nat := 0xB
def FLO : Nat := 0xC
def NIL : Nat := 0xF

/-- Operator codes, C lines 95-110. -/
def ADD : Nat := 0x0
def SUB : Nat := 0x1
def MUL : Nat := 0x2
def DIV : Nat := 0x3
def MOD : Nat := 0x4
def AND : Nat := 0x5
def OR  : Nat := 0x6
def XOR : Nat := 0x7
def SHL : Nat := 0x8
def SHR : Nat := 0x9
def LTN : Nat := 0xA
def LTE : Nat := 0xB
def EQL : Nat := 0xC
def GTE : Nat := 0xD
def GTN : Nat := 0xE
def NEQ : Nat := 0xF

/-- Generated constructor/function ids, C lines 112-119. -/
def GENTREE_ : Nat := 29
def FFT_ : Nat := 32
def MAIN_ : Nat := 28
def ADDRIGHTLEAF_ : Nat := 33
def ADDLEFTLEAF_ : Nat := 34

/-! ## Generic state helpers -/

/-- Pointwise update of a total map (a single memory write). -/
def updF {α : Type} (f : Nat → α) (k : Nat) (v : α) : Nat → α :=
  fun x => if x = k then v else f x

/-- Heap write. -/
def hset (h : Nat → Nat) (l v : Nat) : Nat → Nat := updF h l v

/-! ## Link constructors (C lines 231-282).
Each constructor bitwise-ors disjoint fields, exactly as the C code. -/

def Var (pos : Nat) : Ptr := VAR * TAG ||| pos

def Dp0 (col pos : Nat) : Ptr := DP0 * TAG ||| (col * EXT) ||| pos

def Dp1 (col pos : Nat) : Ptr := DP1 * TAG ||| (col * EXT) ||| pos

def Arg (pos : Nat) : Ptr := ARG * TAG ||| pos

def Era : Ptr := ERA * TAG

def Lam (pos : Nat) : Ptr := LAM * TAG ||| pos

def App (pos : Nat) : Ptr := APP * TAG ||| pos

/-- `Ptr Par(u64 col, u64 pos)` — the SUP constructor. -/
def Par (col pos : Nat) : Ptr := SUP * TAG ||| (col * EXT) ||| pos

def Op2 (ope pos : Nat) : Ptr := OP2 * TAG ||| (ope * EXT) ||| pos

/-- `Ptr Num(u64 val) { return (NUM * TAG) | (val & NUM_MASK); }` -/
def Num (val : Nat) : Ptr := NUM * TAG ||| (val &&& NUM_MASK)

def Nil : Ptr := NIL * TAG

/-- `Ptr Ctr(u64 ari, u64 fun, u64 pos)` — the `ari` argument is ignored by
the encoding, exactly as in C. -/
def Ctr (_ari fn pos : Nat) : Ptr := CTR * TAG ||| (fn * EXT) ||| pos

/-- `Ptr Cal(u64 ari, u64 fun, u64 pos)` — FUN constructor; `ari` ignored. -/
def Cal (_ari fn pos : Nat) : Ptr := FUN * TAG ||| (fn * EXT) ||| pos

/-! ## Link decoders (C lines 284-306) -/

def get_tag (lnk : Ptr) : Nat := lnk / TAG

def get_ext (lnk : Ptr) : Nat := (lnk / EXT) &&& 0xFFFFFF

def get_val (lnk : Ptr) : Nat := lnk &&& 0xFFFFFFFF

def get_num (lnk : Ptr) : Nat := lnk &&& 0xFFFFFFFFFFFFFFF

def get_loc (lnk : Ptr) (arg : Nat) : Nat := get_val lnk + arg

/-! ## Worker state (C struct `Worker`, lines 139-160).
`node` is the process-wide shared heap (all C workers hold the same pointer);
`lock` is the ghost view of the per-dup-block atomic flags; the pthread
hand-off fields are not part of the sequential model. -/

structure Worker where
  tid  : Nat
  node : Nat → Nat
  lock : Nat → Bool
  size : Nat
  free : Nat → List Nat
  cost : Nat
  dups : Nat
  aris : Nat → Nat
  funs : Nat

/-- `u64 ask_ari(Worker* mem, Ptr lnk)` (C lines 308-317). -/
def ask_ari (mem : Worker) (lnk : Ptr) : Nat :=
  let fid := get_ext lnk
  if fid < mem.funs then mem.aris fid else 0

/-- `Ptr ask_lnk(Worker* mem, u64 loc)` -/
def ask_lnk (mem : Worker) (loc : Nat) : Ptr := mem.node loc

/-- `Ptr ask_arg(Worker* mem, Ptr term, u64 arg)` -/
def ask_arg (mem : Worker) (term : Ptr) (arg : Nat) : Ptr :=
  ask_lnk mem (get_loc term arg)

/-- `u64 link(Worker* mem, u64 loc, Ptr lnk)` (C lines 332-340): writes `lnk`
at `loc`; if `lnk` is DP0/DP1/VAR (tag ≤ VAR) also writes `Arg(loc)` into the
binder slot (slot 1 for DP1, slot 0 otherwise).  The C function returns `lnk`;
callers that use the return value use the argument, so we return the state. -/
def link (mem : Worker) (loc : Nat) (lnk : Ptr) : Worker :=
  let mem1 := { mem with node := hset mem.node loc lnk }
  if get_tag lnk ≤ VAR then
    { mem1 with
      node := hset mem1.node (get_loc lnk (if get_tag lnk = DP1 then 1 else 0)) (Arg loc) }
  else mem1

/-- `u64 alloc(Worker* mem, u64 size)` (C lines 343-356): 0 for size 0; else
pop the per-size free list (`stk_pop` yields the most recent push); on a miss
bump the frontier.  There is no bounds check in the C code. -/
def alloc (mem : Worker) (size : Nat) : Nat × Worker :=
  if size = 0 then (0, mem)
  else
    match mem.free size with
    | reuse :: rest => (reuse, { mem with free := updF mem.free size rest })
    | [] => (mem.tid * MEM_SPACE + mem.size, { mem with size := mem.size + size })

/-- `void clear(Worker* mem, u64 loc, u64 size)` (C lines 359-361). -/
def clear (mem : Worker) (loc size : Nat) : Worker :=
  { mem with free := updF mem.free size (loc :: mem.free size) }

/-- `void inc_cost(Worker* mem)` -/
def inc_cost (mem : Worker) : Worker := { mem with cost := mem.cost + 1 }

/-- `u64 gen_dupk(Worker* mem) { return mem->dups++ & 0xFFFFFF; }` -/
def gen_dupk (mem : Worker) : Nat × Worker :=
  (mem.dups &&& 0xFFFFFF, { mem with dups := mem.dups + 1 })

/-! ## collect (C lines 373-427), with fuel.
The C recursion can diverge on cyclic node graphs, so the model takes fuel and
returns `none` when it runs out.  The loop over CTR/FUN arguments re-reads the
mutated heap at each step, exactly like the C `for` loop, and is encoded as the
`Sum.inr (term, i, arity)` mode. -/

def collect (mem : Worker) : Nat → (Ptr ⊕ (Ptr × Nat × Nat)) → Option Worker
  | 0, _ => none
  | _fuel+1, Sum.inr (term, i, arity) =>
    if i < arity then
      match collect mem _fuel (Sum.inl (ask_arg mem term i)) with
      | none => none
      | some mem1 => collect mem1 _fuel (Sum.inr (term, i + 1, arity))
    else some mem
  | _fuel+1, Sum.inl term =>
    let t := get_tag term
    if t = DP0 then some (link mem (get_loc term 0) Era)
    else if t = DP1 then some (link mem (get_loc term 1) Era)
    else if t = VAR then some (link mem (get_loc term 0) Era)
    else if t = LAM then
      let mem1 :=
        if get_tag (ask_arg mem term 0) ≠ ERA then
          link mem (get_loc (ask_arg mem term 0) 0) Era
        else mem
      match collect mem1 _fuel (Sum.inl (ask_arg mem1 term 1)) with
      | none => none
      | some mem2 => some (clear mem2 (get_loc term 0) 2)
    else if t = APP ∨ t = SUP ∨ t = OP2 then
      match collect mem _fuel (Sum.inl (ask_arg mem term 0)) with
      | none => none
      | some mem1 =>
        match collect mem1 _fuel (Sum.inl (ask_arg mem1 term 1)) with
        | none => none
        | some mem2 => some (clear mem2 (get_loc term 0) 2)
    else if t = NUM then some mem
    else if t = CTR ∨ t = FUN then
      let arity := ask_ari mem term
      match collect mem _fuel (Sum.inr (term, 0, arity)) with
      | none => none
      | some mem1 => some (clear mem1 (get_loc term 0) arity)
    else some mem

/-- `void subst(Worker* mem, Ptr lnk, Ptr val)` (C lines 443-449). -/
def subst (cfuel : Nat) (mem : Worker) (lnk val : Ptr) : Option Worker :=
  if get_tag lnk ≠ ERA then some (link mem (get_loc lnk 0) val)
  else collect mem cfuel (Sum.inl val)

/-! ## cal_par (C lines 457-481): the generic FUN-SUP commutation. -/

/-- The `for` loop of `cal_par`: `i` is the current index, the second argument
the number of remaining iterations; state is threaded exactly as the C loop
(all reads from the current heap). -/
def cal_par_loop (term argn fun0 fun1 n : Nat) : Nat → Nat → Worker → Worker
  | _, 0, mem => mem
  | i, k+1, mem =>
    let mem2 :=
      if i ≠ n then
        let (leti, mem1) := alloc mem 3
        let argi := ask_arg mem1 term i
        let memA := link mem1 (fun0 + i) (Dp0 (get_ext argn) leti)
        let memB := link memA (fun1 + i) (Dp1 (get_ext argn) leti)
        link memB (leti + 2) argi
      else
        let memA := link mem (fun0 + i) (ask_arg mem argn 0)
        link memA (fun1 + i) (ask_arg memA argn 1)
    cal_par_loop term argn fun0 fun1 n (i+1) k mem2

/-- `Ptr cal_par(Worker* mem, u64 host, Ptr term, Ptr argn, u64 n)` -/
def cal_par (mem : Worker) (host : Nat) (term argn : Ptr) (n : Nat) : Worker × Ptr :=
  let mem0 := inc_cost mem
  let arit := ask_ari mem0 term
  let func := get_ext term
  let fun0 := get_loc term 0
  let (fun1, mem1) := alloc mem0 arit
  let par0 := get_loc argn 0
  let mem2 := cal_par_loop term argn fun0 fun1 n 0 arit mem1
  let mem3 := link mem2 (par0 + 0) (Cal arit func fun0)
  let mem4 := link mem3 (par0 + 1) (Cal arit func fun1)
  let done := Par (get_ext argn) par0
  let mem5 := link mem4 host done
  (mem5, done)

/-! ## Generated-code idioms.
The rule compiler emits the same two code shapes many times; they are factored
here verbatim so each generated arm below stays readable. -/

/-- The generated non-linear-variable duplication idiom (e.g. C lines 923-936):
`if (get_tag(cpy) == NUM) { inc_cost; dp0 = dp1 = cpy; } else { dup = alloc(3);
col = gen_dupk(); link(dup+2, cpy); dp0 = Dp0(col,dup); dp1 = Dp1(col,dup); }` -/
def dup_gen (mem : Worker) (cpy : Ptr) : Worker × Ptr × Ptr :=
  if get_tag cpy = NUM then
    (inc_cost mem, cpy, cpy)
  else
    let (dup3, mem1) := alloc mem 3
    let (col4, mem2) := gen_dupk mem1
    let mem3 := link mem2 (dup3 + 2) cpy
    (mem3, Dp0 col4 dup3, Dp1 col4 dup3)

/-- The generated static-subtraction idiom (e.g. C lines 952-960):
`if (get_tag(x) == NUM && get_tag(Num(k)) == NUM) { ret = Num(get_num(x) -
get_num(Num(k))); inc_cost; } else { op2 = alloc(2); link(op2+0, x);
link(op2+1, Num(k)); ret = Op2(SUB, op2); }` — the u64 subtraction wraps
modulo 2^64 before `Num` masks to 60 bits. -/
def sub_gen (mem : Worker) (x k : Nat) : Worker × Ptr :=
  if get_tag x = NUM ∧ get_tag (Num k) = NUM then
    (inc_cost mem, Num ((get_num x + (U64M - get_num (Num k))) % U64M))
  else
    let (op2l, mem1) := alloc mem 2
    let mem2 := link mem1 (op2l + 0) x
    let mem3 := link mem2 (op2l + 1) (Num k)
    (mem3, Op2 SUB op2l)

/-! ## The OP2-NUM arithmetic (C lines 810-827).
C computes in u64 (wrap modulo 2^64) and masks with NUM_MASK.  Division or
modulo by zero and shifts by 64 or more are undefined behaviour in C (the
process traps or worse); those cases are `none`. -/

def op2_num (ope a b : Nat) : Option Nat :=
  if ope = ADD then some (((a + b) % U64M) &&& NUM_MASK)
  else if ope = SUB then some (((a + (U64M - b)) % U64M) &&& NUM_MASK)
  else if ope = MUL then some (((a * b) % U64M) &&& NUM_MASK)
  else if ope = DIV then (if b = 0 then none else some ((a / b) &&& NUM_MASK))
  else if ope = MOD then (if b = 0 then none else some ((a % b) &&& NUM_MASK))
  else if ope = AND then some ((a &&& b) &&& NUM_MASK)
  else if ope = OR then some ((a ||| b) &&& NUM_MASK)
  else if ope = XOR then some ((a ^^^ b) &&& NUM_MASK)
  else if ope = SHL then (if 64 ≤ b then none else some (((a <<< b) % U64M) &&& NUM_MASK))
  else if ope = SHR then (if 64 ≤ b then none else some ((a >>> b) &&& NUM_MASK))
  else if ope = LTN then some (if a < b then 1 else 0)
  else if ope = LTE then some (if a ≤ b then 1 else 0)
  else if ope = EQL then some (if a = b then 1 else 0)
  else if ope = GTE then some (if b ≤ a then 1 else 0)
  else if ope = GTN then some (if b < a then 1 else 0)
  else if ope = NEQ then some (if a ≠ b then 1 else 0)
  else some 0

/-! ## One iteration of the reduce loop (C lines 491-1259). -/

/-- Outcome of one iteration of `reduce`'s `while (1)` loop: either the loop
continues with a new state, or `reduce` returns. -/
inductive Step where
  | cont (mem : Worker) (stack : List Nat) (init host : Nat)
  | done (mem : Worker) (res : Ptr)

/-- The `stk_pop` at the bottom of the loop (C lines 1250-1257): stack empty
means `break` and `return ask_lnk(mem, root)`; otherwise unpack the phase bit
and continue. -/
def pop_out (root : Nat) (mem : Worker) (stack : List Nat) : Step :=
  match stack with
  | [] => Step.done mem (ask_lnk mem root)
  | item :: rest => Step.cont mem rest (item >>> 31) (item &&& 0x7FFFFFFF)

/-- Ghost set of a dup-block lock flag (C `atomic_flag_test_and_set`). -/
def lock_set (mem : Worker) (key : Nat) : Worker :=
  { mem with lock := updF mem.lock key true }

/-- Ghost clear of a dup-block lock flag (C `atomic_flag_clear`). -/
def lock_clear (mem : Worker) (key : Nat) : Worker :=
  { mem with lock := updF mem.lock key false }

/-- The `dup a0 a1 = a; ...` loop of DUP-CTR (C lines 756-761), `i` running
over the first `arit - 1` children. -/
def dup_ctr_loop (term arg0 ctr0 ctr1 : Nat) : Nat → Nat → Worker → Worker
  | _, 0, mem => mem
  | i, k+1, mem =>
    let (leti, mem1) := alloc mem 3
    let mem2 := link mem1 (leti + 2) (ask_arg mem1 arg0 i)
    let mem3 := link mem2 (ctr0 + i) (Dp0 (get_ext term) leti)
    let mem4 := link mem3 (ctr1 + i) (Dp1 (get_ext term) leti)
    dup_ctr_loop term arg0 ctr0 ctr1 (i+1) k mem4

/-- Generated STEP_1 arm for `_GENTREE_` (C lines 886-987). -/
def fun_asc_gentree (_cfuel root : Nat) (mem : Worker) (stack : List Nat)
    (init host : Nat) (term : Ptr) : Option Step :=
  if get_tag (ask_arg mem term 0) = SUP then
    let (mem1, _) := cal_par mem host term (ask_arg mem term 0) 0
    some (Step.cont mem1 stack init host)
  else if get_tag (ask_arg mem term 0) = NUM ∧ get_num (ask_arg mem term 0) = 0 then
    let mem1 := inc_cost mem
    let mem2 := link mem1 host (ask_arg mem1 term 1)
    let mem3 := clear mem2 (get_loc term 0) 2
    some (Step.cont mem3 stack 1 host)
  else if get_tag (ask_arg mem term 0) = NUM ∧ get_num (ask_arg mem term 0) = 1 then
    let mem1 := inc_cost mem
    let mem2 := link mem1 host (ask_arg mem1 term 1)
    let mem3 := clear mem2 (get_loc term 0) 2
    some (Step.cont mem3 stack 1 host)
  else if get_tag (ask_arg mem term 0) = NUM ∧ get_num (ask_arg mem term 0) = 2 then
    let mem1 := inc_cost mem
    let (cal_0, mem2) := alloc mem1 2
    let mem3 := link mem2 (cal_0 + 0) (Num 2)
    let mem4 := link mem3 (cal_0 + 1) (ask_arg mem3 term 1)
    let (cal_1, mem5) := alloc mem4 2
    let mem6 := link mem5 (cal_1 + 0) (Num 1)
    let mem7 := link mem6 (cal_1 + 1) (Cal 2 33 cal_0)
    let mem8 := link mem7 host (Cal 2 34 cal_1)
    let mem9 := clear mem8 (get_loc term 0) 2
    some (Step.cont mem9 stack 1 host)
  else if get_tag (ask_arg mem term 0) = CTR ∨ get_tag (ask_arg mem term 0) = NUM then
    let mem1 := inc_cost mem
    let cpy_0 := ask_arg mem1 term 0
    let (mem2, dp0_1, dp1_2) := dup_gen mem1 cpy_0
    let cpy_5 := dp0_1
    let (mem3, dp0_6, dp1_7) := dup_gen mem2 cpy_5
    let (mem4, ret_10) := sub_gen mem3 dp1_2 2
    let (mem5, ret_12) := sub_gen mem4 dp0_6 1
    let (cal_14, mem6) := alloc mem5 2
    let mem7 := link mem6 (cal_14 + 0) dp1_7
    let mem8 := link mem7 (cal_14 + 1) (ask_arg mem7 term 1)
    let (cal_15, mem9) := alloc mem8 2
    let memA := link mem9 (cal_15 + 0) ret_12
    let memB := link memA (cal_15 + 1) (Cal 2 33 cal_14)
    let (cal_16, memC) := alloc memB 2
    let memD := link memC (cal_16 + 0) ret_10
    let memE := link memD (cal_16 + 1) (Cal 2 34 cal_15)
    let memF := link memE host (Cal 2 29 cal_16)
    let memG := clear memF (get_loc term 0) 2
    some (Step.cont memG stack 1 host)
  else some (pop_out root mem stack)

/-- Generated STEP_1 arm for `_FFT_` (C lines 988-1140). -/
def fun_asc_fft (_cfuel root : Nat) (mem : Worker) (stack : List Nat)
    (init host : Nat) (term : Ptr) : Option Step :=
  if get_tag (ask_arg mem term 0) = SUP then
    let (mem1, _) := cal_par mem host term (ask_arg mem term 0) 0
    some (Step.cont mem1 stack init host)
  else if get_tag (ask_arg mem term 0) = CTR ∧ get_ext (ask_arg mem term 0) = 31 then
    -- (FFT (Leaf a)) arm, C lines 993-1003
    let mem1 := inc_cost mem
    let (ctr_0, mem2) := alloc mem1 1
    let mem3 := link mem2 (ctr_0 + 0) (ask_arg mem2 (ask_arg mem2 term 0) 0)
    let mem4 := link mem3 host (Ctr 1 31 ctr_0)
    let mem5 := clear mem4 (get_loc term 0) 1
    let mem6 := clear mem5 (get_loc (ask_arg mem5 term 0) 0) 1
    some (Step.cont mem6 stack 1 host)
  else if get_tag (ask_arg mem term 0) = CTR ∧ get_ext (ask_arg mem term 0) = 30 then
    -- (FFT (Both a b)) arm, C lines 1004-1138
    let mem1 := inc_cost mem
    let cpy_0 := ask_arg mem1 (ask_arg mem1 term 0) 1
    let (mem2, dp0_1, dp1_2) := dup_gen mem1 cpy_0
    let cpy_5 := ask_arg mem2 (ask_arg mem2 term 0) 0
    let (mem3, dp0_6, dp1_7) := dup_gen mem2 cpy_5
    let (cal_13, mem4) := alloc mem3 1
    let mem5 := link mem4 (cal_13 + 0) dp0_6
    let cpy_10 := Cal 1 32 cal_13
    let (mem6, dp0_11, dp1_12) := dup_gen mem5 cpy_10
    let (cal_16, mem7) := alloc mem6 1
    let mem8 := link mem7 (cal_16 + 0) dp0_1
    let (ctr_20, mem9) := alloc mem8 2
    let memA := link mem9 (ctr_20 + 0) dp1_7
    let memB := link memA (ctr_20 + 1) dp1_2
    let (ctr_21, memC) := alloc memB 1
    let memD := link memC (ctr_21 + 0) (Ctr 2 30 ctr_20)
    let cpy_17 := Ctr 1 35 ctr_21
    let (memE, dp0_18, dp1_19) := dup_gen memD cpy_17
    let (lam_24, memF) := alloc memE 2
    let (ctr_25, memG) := alloc memF 2
    let memH := link memG (ctr_25 + 0) dp0_18
    let memI := link memH (ctr_25 + 1) (Var lam_24)
    let memJ := link memI (lam_24 + 1) (Ctr 2 37 ctr_25)
    let (ctr_26, memK) := alloc memJ 2
    let memL := link memK (ctr_26 + 0) (Num 0)
    let memM := link memL (ctr_26 + 1) dp1_19
    let (ctr_27, memN) := alloc memM 2
    let memO := link memN (ctr_27 + 0) (Lam lam_24)
    let memP := link memO (ctr_27 + 1) (Ctr 2 38 ctr_26)
    let (lam_31, memQ) := alloc memP 2
    let (lam_32, memR) := alloc memQ 2
    let (ctr_33, memS) := alloc memR 2
    let memT := link memS (ctr_33 + 0) (Var lam_31)
    let memU := link memT (ctr_33 + 1) (Var lam_32)
    let memV := link memU (lam_32 + 1) (Ctr 2 40 ctr_33)
    let memW := link memV (lam_31 + 1) (Lam lam_32)
    let (ctr_34, memX) := alloc memW 3
    let memY := link memX (ctr_34 + 0) (Lam lam_31)
    let memZ := link memY (ctr_34 + 1) (Ctr 2 36 ctr_27)
    let mf0 := link memZ (ctr_34 + 2) (Cal 1 32 cal_16)
    let cpy_28 := Ctr 3 39 ctr_34
    let (mf1, dp0_29, dp1_30) := dup_gen mf0 cpy_28
    let (lam_37, mf2) := alloc mf1 2
    let (lam_38, mf3) := alloc mf2 2
    let (ctr_39, mf4) := alloc mf3 2
    let mf5 := link mf4 (ctr_39 + 0) (Var lam_37)
    let mf6 := link mf5 (ctr_39 + 1) (Var lam_38)
    let mf7 := link mf6 (lam_38 + 1) (Ctr 2 41 ctr_39)
    let mf8 := link mf7 (lam_37 + 1) (Lam lam_38)
    let (ctr_40, mf9) := alloc mf8 3
    let mfA := link mf9 (ctr_40 + 0) (Lam lam_37)
    let mfB := link mfA (ctr_40 + 1) dp0_11
    let mfC := link mfB (ctr_40 + 2) dp0_29
    let (lam_41, mfD) := alloc mfC 2
    let (lam_42, mfE) := alloc mfD 2
    let (ctr_43, mfF) := alloc mfE 2
    let mfG := link mfF (ctr_43 + 0) (Var lam_41)
    let mfH := link mfG (ctr_43 + 1) (Var lam_42)
    let mfI := link mfH (lam_42 + 1) (Ctr 2 42 ctr_43)
    let mfJ := link mfI (lam_41 + 1) (Lam lam_42)
    let (ctr_44, mfK) := alloc mfJ 3
    let mfL := link mfK (ctr_44 + 0) (Lam lam_41)
    let mfM := link mfL (ctr_44 + 1) dp1_12
    let mfN := link mfM (ctr_44 + 2) dp1_30
    let (ctr_45, mfO) := alloc mfN 2
    let mfP := link mfO (ctr_45 + 0) (Ctr 3 39 ctr_40)
    let mfQ := link mfP (ctr_45 + 1) (Ctr 3 39 ctr_44)
    let mfR := link mfQ host (Ctr 2 30 ctr_45)
    let mfS := clear mfR (get_loc term 0) 1
    let mfT := clear mfS (get_loc (ask_arg mfS term 0) 0) 2
    some (Step.cont mfT stack 1 host)
  else some (pop_out root mem stack)

/-- Generated STEP_1 arm for `_MAIN_` (C lines 1141-1164); the guard is
`if (1)`, so the arm always fires. -/
def fun_asc_main (cfuel _root : Nat) (mem : Worker) (stack : List Nat)
    (_init host : Nat) (term : Ptr) : Option Step :=
  let mem1 := inc_cost mem
  let (ctr_0, mem2) := alloc mem1 1
  let mem3 := link mem2 (ctr_0 + 0) (Num 0)
  let (ctr_1, mem4) := alloc mem3 1
  let mem5 := link mem4 (ctr_1 + 0) (Num 1)
  let (ctr_2, mem6) := alloc mem5 2
  let mem7 := link mem6 (ctr_2 + 0) (Ctr 1 31 ctr_0)
  let mem8 := link mem7 (ctr_2 + 1) (Ctr 1 31 ctr_1)
  let (cal_3, mem9) := alloc mem8 2
  let memA := link mem9 (cal_3 + 0) (Num 1048)
  let memB := link memA (cal_3 + 1) (Ctr 2 30 ctr_2)
  let (cal_4, memC) := alloc memB 1
  let memD := link memC (cal_4 + 0) (Cal 2 29 cal_3)
  let memE := link memD host (Cal 1 32 cal_4)
  let memF := clear memE (get_loc term 0) 1
  match collect memF cfuel (Sum.inl (ask_arg memF term 0)) with
  | none => none
  | some memG => some (Step.cont memG stack 1 host)

/-- Generated STEP_1 arm for `_ADDRIGHTLEAF_` (C lines 1165-1202). -/
def fun_asc_addrightleaf (_cfuel root : Nat) (mem : Worker) (stack : List Nat)
    (init host : Nat) (term : Ptr) : Option Step :=
  if get_tag (ask_arg mem term 1) = SUP then
    let (mem1, _) := cal_par mem host term (ask_arg mem term 1) 1
    some (Step.cont mem1 stack init host)
  else if get_tag (ask_arg mem term 1) = CTR ∧ get_ext (ask_arg mem term 1) = 31 then
    let mem1 := inc_cost mem
    let (ctr_0, mem2) := alloc mem1 1
    let mem3 := link mem2 (ctr_0 + 0) (ask_arg mem2 (ask_arg mem2 term 1) 0)
    let (ctr_1, mem4) := alloc mem3 1
    let mem5 := link mem4 (ctr_1 + 0) (ask_arg mem4 term 0)
    let (ctr_2, mem6) := alloc mem5 2
    let mem7 := link mem6 (ctr_2 + 0) (Ctr 1 31 ctr_0)
    let mem8 := link mem7 (ctr_2 + 1) (Ctr 1 31 ctr_1)
    let mem9 := link mem8 host (Ctr 2 30 ctr_2)
    let memA := clear mem9 (get_loc term 0) 2
    let memB := clear memA (get_loc (ask_arg memA term 1) 0) 1
    some (Step.cont memB stack 1 host)
  else if get_tag (ask_arg mem term 1) = CTR ∧ get_ext (ask_arg mem term 1) = 30 then
    let mem1 := inc_cost mem
    let (cal_0, mem2) := alloc mem1 2
    let mem3 := link mem2 (cal_0 + 0) (ask_arg mem2 term 0)
    let mem4 := link mem3 (cal_0 + 1) (ask_arg mem3 (ask_arg mem3 term 1) 1)
    let (ctr_1, mem5) := alloc mem4 2
    let mem6 := link mem5 (ctr_1 + 0) (ask_arg mem5 (ask_arg mem5 term 1) 0)
    let mem7 := link mem6 (ctr_1 + 1) (Cal 2 33 cal_0)
    let mem8 := link mem7 host (Ctr 2 30 ctr_1)
    let mem9 := clear mem8 (get_loc term 0) 2
    let memA := clear mem9 (get_loc (ask_arg mem9 term 1) 0) 2
    some (Step.cont memA stack 1 host)
  else some (pop_out root mem stack)

/-- Generated STEP_1 arm for `_ADDLEFTLEAF_` (C lines 1203-1240). -/
def fun_asc_addleftleaf (_cfuel root : Nat) (mem : Worker) (stack : List Nat)
    (init host : Nat) (term : Ptr) : Option Step :=
  if get_tag (ask_arg mem term 1) = SUP then
    let (mem1, _) := cal_par mem host term (ask_arg mem term 1) 1
    some (Step.cont mem1 stack init host)
  else if get_tag (ask_arg mem term 1) = CTR ∧ get_ext (ask_arg mem term 1) = 31 then
    let mem1 := inc_cost mem
    let (ctr_0, mem2) := alloc mem1 1
    let mem3 := link mem2 (ctr_0 + 0) (ask_arg mem2 term 0)
    let (ctr_1, mem4) := alloc mem3 1
    let mem5 := link mem4 (ctr_1 + 0) (ask_arg mem4 (ask_arg mem4 term 1) 0)
    let (ctr_2, mem6) := alloc mem5 2
    let mem7 := link mem6 (ctr_2 + 0) (Ctr 1 31 ctr_0)
    let mem8 := link mem7 (ctr_2 + 1) (Ctr 1 31 ctr_1)
    let mem9 := link mem8 host (Ctr 2 30 ctr_2)
    let memA := clear mem9 (get_loc term 0) 2
    let memB := clear memA (get_loc (ask_arg memA term 1) 0) 1
    some (Step.cont memB stack 1 host)
  else if get_tag (ask_arg mem term 1) = CTR ∧ get_ext (ask_arg mem term 1) = 30 then
    let mem1 := inc_cost mem
    let (cal_0, mem2) := alloc mem1 2
    let mem3 := link mem2 (cal_0 + 0) (ask_arg mem2 term 0)
    let mem4 := link mem3 (cal_0 + 1) (ask_arg mem3 (ask_arg mem3 term 1) 0)
    let (ctr_1, mem5) := alloc mem4 2
    let mem6 := link mem5 (ctr_1 + 0) (Cal 2 34 cal_0)
    let mem7 := link mem6 (ctr_1 + 1) (ask_arg mem6 (ask_arg mem6 term 1) 1)
    let mem8 := link mem7 host (Ctr 2 30 ctr_1)
    let mem9 := clear mem8 (get_loc term 0) 2
    let memA := clear mem9 (get_loc (ask_arg mem9 term 1) 0) 2
    some (Step.cont memA stack 1 host)
  else some (pop_out root mem stack)

/-- One iteration of the `while (1)` loop of
`Ptr reduce(Worker* mem, u64 root, u64 slen)` (C lines 491-1259).
`init = 1` is the descent phase, anything else the ascent phase.  `cfuel` is
the fuel handed to `collect` calls made through `subst`. -/
def reduce_iter (cfuel slen root : Nat) (mem : Worker) (stack : List Nat)
    (init host : Nat) : Option Step :=
  let term := ask_lnk mem host
  if init = 1 then
    -- descent switch, C lines 502-589
    let t := get_tag term
    if t = APP then
      some (Step.cont mem (host :: stack) 1 (get_loc term 0))
    else if t = DP0 ∨ t = DP1 then
      -- C lines 511-529: test-and-set the dup-block lock, re-check the head,
      -- then descend into the shared subject (slot 2)
      if mem.lock (get_loc term 0) then
        some (Step.cont mem stack init host)
      else
        let mem1 := lock_set mem (get_loc term 0)
        if term ≠ ask_lnk mem1 host then
          some (Step.cont (lock_clear mem1 (get_loc term 0)) stack init host)
        else
          some (Step.cont mem1 (host :: stack) init (get_loc term 2))
    else if t = OP2 then
      if slen = 1 ∨ 0 < stack.length then
        some (Step.cont mem ((get_loc term 0 ||| 0x80000000) :: host :: stack) init
          (get_loc term 1))
      else some (pop_out root mem stack)
    else if t = FUN then
      -- generated STEP_0 switch (C lines 546-585); the generated `case`
      -- blocks have no `break`, so a case whose guard fails falls through to
      -- the next case's guard
      let fn := get_ext term
      if fn = GENTREE_ ∧ ask_ari mem term = 2 then
        some (Step.cont mem (host :: stack) init (get_loc term 0))
      else if (fn = GENTREE_ ∨ fn = FFT_) ∧ ask_ari mem term = 1 then
        some (Step.cont mem (host :: stack) init (get_loc term 0))
      else if (fn = GENTREE_ ∨ fn = FFT_ ∨ fn = MAIN_) ∧ ask_ari mem term = 1 then
        some (Step.cont mem stack 0 host)
      else if (fn = GENTREE_ ∨ fn = FFT_ ∨ fn = MAIN_ ∨ fn = ADDRIGHTLEAF_)
          ∧ ask_ari mem term = 2 then
        some (Step.cont mem (host :: stack) init (get_loc term 1))
      else if (fn = GENTREE_ ∨ fn = FFT_ ∨ fn = MAIN_ ∨ fn = ADDRIGHTLEAF_
          ∨ fn = ADDLEFTLEAF_) ∧ ask_ari mem term = 2 then
        some (Step.cont mem (host :: stack) init (get_loc term 1))
      else some (pop_out root mem stack)
    else some (pop_out root mem stack)
  else
    -- ascent switch, C lines 593-1247
    let t := get_tag term
    if t = APP then
      let arg0 := ask_arg mem term 0
      if get_tag arg0 = LAM then
        -- APP-LAM, C lines 602-611
        let mem1 := inc_cost mem
        match subst cfuel mem1 (ask_arg mem1 arg0 0) (ask_arg mem1 term 1) with
        | none => none
        | some mem2 =>
          let mem3 := link mem2 host (ask_arg mem2 arg0 1)
          let mem4 := clear mem3 (get_loc term 0) 2
          let mem5 := clear mem4 (get_loc arg0 0) 2
          some (Step.cont mem5 stack 1 host)
      else if get_tag arg0 = SUP then
        -- APP-SUP, C lines 617-634
        let mem1 := inc_cost mem
        let app0 := get_loc term 0
        let app1 := get_loc arg0 0
        let (let0, mem2) := alloc mem1 3
        let (par0, mem3) := alloc mem2 2
        let mem4 := link mem3 (let0 + 2) (ask_arg mem3 term 1)
        let mem5 := link mem4 (app0 + 1) (Dp0 (get_ext arg0) let0)
        let mem6 := link mem5 (app0 + 0) (ask_arg mem5 arg0 0)
        let mem7 := link mem6 (app1 + 0) (ask_arg mem6 arg0 1)
        let mem8 := link mem7 (app1 + 1) (Dp1 (get_ext arg0) let0)
        let mem9 := link mem8 (par0 + 0) (App app0)
        let memA := link mem9 (par0 + 1) (App app1)
        let memB := link memA host (Par (get_ext arg0) par0)
        some (pop_out root memB stack)
      else some (pop_out root mem stack)
    else if t = DP0 ∨ t = DP1 then
      let arg0 := ask_arg mem term 2
      if get_tag arg0 = LAM then
        -- DUP-LAM, C lines 650-672
        let mem1 := inc_cost mem
        let let0 := get_loc term 0
        let par0 := get_loc arg0 0
        let (lam0, mem2) := alloc mem1 2
        let (lam1, mem3) := alloc mem2 2
        let mem4 := link mem3 (let0 + 2) (ask_arg mem3 arg0 1)
        let mem5 := link mem4 (par0 + 1) (Var lam1)
        let arg0_arg_0 := ask_arg mem5 arg0 0
        let mem6 := link mem5 (par0 + 0) (Var lam0)
        match subst cfuel mem6 arg0_arg_0 (Par (get_ext term) par0) with
        | none => none
        | some mem7 =>
          let term_arg_0 := ask_arg mem7 term 0
          let mem8 := link mem7 (lam0 + 1) (Dp0 (get_ext term) let0)
          match subst cfuel mem8 term_arg_0 (Lam lam0) with
          | none => none
          | some mem9 =>
            let term_arg_1 := ask_arg mem9 term 1
            let memA := link mem9 (lam1 + 1) (Dp1 (get_ext term) let0)
            match subst cfuel memA term_arg_1 (Lam lam1) with
            | none => none
            | some memB =>
              let memC := link memB host (Lam (if get_tag term = DP0 then lam0 else lam1))
              some (Step.cont memC stack 1 host)
      else if get_tag arg0 = SUP then
        if get_ext term = get_ext arg0 then
          -- DUP-SUP, equal colors: annihilate (C lines 687-695)
          let mem1 := inc_cost mem
          match subst cfuel mem1 (ask_arg mem1 term 0) (ask_arg mem1 arg0 0) with
          | none => none
          | some mem2 =>
            match subst cfuel mem2 (ask_arg mem2 term 1) (ask_arg mem2 arg0 1) with
            | none => none
            | some mem3 =>
              let mem4 := link mem3 host (ask_arg mem3 arg0 (if get_tag term = DP0 then 0 else 1))
              let mem5 := clear mem4 (get_loc term 0) 3
              let mem6 := clear mem5 (get_loc arg0 0) 2
              some (Step.cont mem6 stack 1 host)
        else
          -- DUP-SUP, different colors: commute (C lines 696-714)
          let mem1 := inc_cost mem
          let (par0, mem2) := alloc mem1 2
          let let0 := get_loc term 0
          let par1 := get_loc arg0 0
          let (let1, mem3) := alloc mem2 3
          let mem4 := link mem3 (let0 + 2) (ask_arg mem3 arg0 0)
          let mem5 := link mem4 (let1 + 2) (ask_arg mem4 arg0 1)
          let term_arg_0 := ask_arg mem5 term 0
          let term_arg_1 := ask_arg mem5 term 1
          let mem6 := link mem5 (par1 + 0) (Dp1 (get_ext term) let0)
          let mem7 := link mem6 (par1 + 1) (Dp1 (get_ext term) let1)
          let mem8 := link mem7 (par0 + 0) (Dp0 (get_ext term) let0)
          let mem9 := link mem8 (par0 + 1) (Dp0 (get_ext term) let1)
          match subst cfuel mem9 term_arg_0 (Par (get_ext arg0) par0) with
          | none => none
          | some memA =>
            match subst cfuel memA term_arg_1 (Par (get_ext arg0) par1) with
            | none => none
            | some memB =>
              let memC := link memB host
                (Par (get_ext arg0) (if get_tag term = DP0 then par0 else par1))
              some (pop_out root (lock_clear memC (get_loc term 0)) stack)
      else if get_tag arg0 = NUM then
        -- DUP-NUM, C lines 724-732
        let mem1 := inc_cost mem
        match subst cfuel mem1 (ask_arg mem1 term 0) arg0 with
        | none => none
        | some mem2 =>
          match subst cfuel mem2 (ask_arg mem2 term 1) arg0 with
          | none => none
          | some mem3 =>
            let mem4 := clear mem3 (get_loc term 0) 3
            let mem5 := link mem4 host arg0
            some (pop_out root (lock_clear mem5 (get_loc term 0)) stack)
      else if get_tag arg0 = CTR then
        -- DUP-CTR, C lines 743-774
        let mem1 := inc_cost mem
        let func := get_ext arg0
        let arit := ask_ari mem1 arg0
        if arit = 0 then
          match subst cfuel mem1 (ask_arg mem1 term 0) (Ctr 0 func 0) with
          | none => none
          | some mem2 =>
            match subst cfuel mem2 (ask_arg mem2 term 1) (Ctr 0 func 0) with
            | none => none
            | some mem3 =>
              let mem4 := clear mem3 (get_loc term 0) 3
              let mem5 := link mem4 host (Ctr 0 func 0)
              some (pop_out root (lock_clear mem5 (get_loc term 0)) stack)
        else
          let ctr0 := get_loc arg0 0
          let (ctr1, mem2) := alloc mem1 arit
          let mem3 := dup_ctr_loop term arg0 ctr0 ctr1 0 (arit - 1) mem2
          let leti := get_loc term 0
          let mem4 := link mem3 (leti + 2) (ask_arg mem3 arg0 (arit - 1))
          let term_arg_0 := ask_arg mem4 term 0
          let mem5 := link mem4 (ctr0 + (arit - 1)) (Dp0 (get_ext term) leti)
          match subst cfuel mem5 term_arg_0 (Ctr arit func ctr0) with
          | none => none
          | some mem6 =>
            let term_arg_1 := ask_arg mem6 term 1
            let mem7 := link mem6 (ctr1 + (arit - 1)) (Dp1 (get_ext term) leti)
            match subst cfuel mem7 term_arg_1 (Ctr arit func ctr1) with
            | none => none
            | some mem8 =>
              let mem9 := link mem8 host (Ctr arit func (if get_tag term = DP0 then ctr0 else ctr1))
              some (pop_out root (lock_clear mem9 (get_loc term 0)) stack)
      else if get_tag arg0 = ERA then
        -- DUP-ERA, C lines 780-788
        let mem1 := inc_cost mem
        match subst cfuel mem1 (ask_arg mem1 term 0) Era with
        | none => none
        | some mem2 =>
          match subst cfuel mem2 (ask_arg mem2 term 1) Era with
          | none => none
          | some mem3 =>
            let mem4 := link mem3 host Era
            let mem5 := clear mem4 (get_loc term 0) 3
            some (Step.cont mem5 stack 1 host)
      else some (pop_out root (lock_clear mem (get_loc term 0)) stack)
    else if t = OP2 then
      let arg0 := ask_arg mem term 0
      let arg1 := ask_arg mem term 1
      if get_tag arg0 = NUM ∧ get_tag arg1 = NUM then
        -- OP2-NUM, C lines 804-831
        let mem1 := inc_cost mem
        match op2_num (get_ext term) (get_num arg0) (get_num arg1) with
        | none => none
        | some c =>
          let mem2 := clear mem1 (get_loc term 0) 2
          let mem3 := link mem2 host (Num c)
          some (pop_out root mem3 stack)
      else if get_tag arg0 = SUP then
        -- OP2-SUP-0, C lines 837-853
        let mem1 := inc_cost mem
        let op20 := get_loc term 0
        let op21 := get_loc arg0 0
        let (let0, mem2) := alloc mem1 3
        let (par0, mem3) := alloc mem2 2
        let mem4 := link mem3 (let0 + 2) arg1
        let mem5 := link mem4 (op20 + 1) (Dp0 (get_ext arg0) let0)
        let mem6 := link mem5 (op20 + 0) (ask_arg mem5 arg0 0)
        let mem7 := link mem6 (op21 + 0) (ask_arg mem6 arg0 1)
        let mem8 := link mem7 (op21 + 1) (Dp1 (get_ext arg0) let0)
        let mem9 := link mem8 (par0 + 0) (Op2 (get_ext term) op20)
        let memA := link mem9 (par0 + 1) (Op2 (get_ext term) op21)
        let memB := link memA host (Par (get_ext arg0) par0)
        some (pop_out root memB stack)
      else if get_tag arg1 = SUP then
        -- OP2-SUP-1, C lines 859-875
        let mem1 := inc_cost mem
        let op20 := get_loc term 0
        let op21 := get_loc arg1 0
        let (let0, mem2) := alloc mem1 3
        let (par0, mem3) := alloc mem2 2
        let mem4 := link mem3 (let0 + 2) arg0
        let mem5 := link mem4 (op20 + 0) (Dp0 (get_ext arg1) let0)
        let mem6 := link mem5 (op20 + 1) (ask_arg mem5 arg1 0)
        let mem7 := link mem6 (op21 + 1) (ask_arg mem6 arg1 1)
        let mem8 := link mem7 (op21 + 0) (Dp1 (get_ext arg1) let0)
        let mem9 := link mem8 (par0 + 0) (Op2 (get_ext term) op20)
        let memA := link mem9 (par0 + 1) (Op2 (get_ext term) op21)
        let memB := link memA host (Par (get_ext arg1) par0)
        some (pop_out root memB stack)
      else some (pop_out root mem stack)
    else if t = FUN then
      -- generated STEP_1 switch (C lines 883-1243); every generated case arm
      -- ends in `break`, so there is no fallthrough here
      let fn := get_ext term
      if fn = GENTREE_ then fun_asc_gentree cfuel root mem stack init host term
      else if fn = FFT_ then fun_asc_fft cfuel root mem stack init host term
      else if fn = MAIN_ then fun_asc_main cfuel root mem stack init host term
      else if fn = ADDRIGHTLEAF_ then fun_asc_addrightleaf cfuel root mem stack init host term
      else if fn = ADDLEFTLEAF_ then fun_asc_addleftleaf cfuel root mem stack init host term
      else some (pop_out root mem stack)
    else some (pop_out root mem stack)

/-- Iterating `reduce_iter` with fuel; `none` means the fuel ran out (the C
loop has not yet returned). -/
def reduce_run (cfuel slen root : Nat) : Nat → Worker → List Nat → Nat → Nat →
    Option (Worker × Ptr)
  | 0, _, _, _, _ => none
  | f+1, mem, stack, init, host =>
    match reduce_iter cfuel slen root mem stack init host with
    | none => none
    | some (Step.done mem1 res) => some (mem1, res)
    | some (Step.cont mem1 stack1 init1 host1) => reduce_run cfuel slen root f mem1 stack1 init1 host1

/-- `Ptr reduce(Worker* mem, u64 root, u64 slen)`: stack empty, `init = 1`,
`host = (u32) root`. -/
def reduce (rfuel cfuel : Nat) (mem : Worker) (root slen : Nat) : Option (Worker × Ptr) :=
  reduce_run cfuel slen root rfuel mem [] 1 (root &&& 0xFFFFFFFF)

/-! ## The parallel normalizer (C lines 1264-1393). -/

/-- `void set_bit(u64* bits, u64 bit)` (C lines 1265-1267). -/
def set_bit (bits : Nat → Nat) (bit : Nat) : Nat → Nat :=
  updF bits (bit >>> 6) (bits (bit >>> 6) ||| (1 <<< (bit &&& 0x3F)))

/-- `u8 get_bit(u64* bits, u64 bit)` (C lines 1270-1272). -/
def get_bit (bits : Nat → Nat) (bit : Nat) : Nat :=
  (bits (bit >>> 6) >>> (bit &&& 0x3F)) &&& 1

/-- Normalizer state: the worker (with the shared heap) plus the global
`normal_seen_data` bitmap, modelled as its array of 64-bit words. -/
structure NSt where
  w : Worker
  seen : Nat → Nat

/-- The child positions `rec_locs` collected by `normal_go` (C lines
1295-1334).  The C `case OP2:` has no `break` when `slen ≤ 1`, so control
falls through into the `case CTR: case FUN:` code, which computes
`ask_ari(mem, term)` — for an OP2 link `get_ext` is the operator code, so the
arity table is indexed by the operator code.  The fallthrough is reproduced
exactly. -/
def rec_locs_of (mem : Worker) (term : Ptr) (slen : Nat) : List Nat :=
  let t := get_tag term
  if t = LAM then [get_loc term 1]
  else if t = APP then [get_loc term 0, get_loc term 1]
  else if t = SUP then [get_loc term 0, get_loc term 1]
  else if t = DP0 then [get_loc term 2]
  else if t = DP1 then [get_loc term 2]
  else if t = OP2 then
    if slen > 1 then [get_loc term 0, get_loc term 1]
    else (List.range (ask_ari mem term)).map (get_loc term)
  else if t = CTR ∨ t = FUN then (List.range (ask_ari mem term)).map (get_loc term)
  else []

/-- Traversal modes of the `normal_go` recursion: `one` is a plain
`normal_go(host, sidx, slen)` call; `seq` is the serial `for` loop over the
child positions; `fks` computes the children handed to forked workers (the
sequential model runs each forked `normal_go` to completion at its fork
point); `jns` is the join loop `link(mem, get_loc(term,i), normal_join(..))`. -/
inductive GoM where
  | one (host sidx slen : Nat)
  | seq (locs : List Nat) (sidx slen : Nat)
  | fks (locs : List Nat) (sidx space : Nat)
  | jns (term : Ptr) (acc : List Nat) (i : Nat)

/-- `Ptr normal_go(Worker* mem, u64 host, u64 sidx, u64 slen)`
(C lines 1287-1371), with fuel.  The second component of the result is the
returned link of a `one` call; the third collects forked results. -/
def normal_go (rfuel cfuel : Nat) : Nat → NSt → GoM → Option (NSt × Nat × List Nat)
  | 0, _, _ => none
  | f+1, st, GoM.one host sidx slen =>
    let term := ask_lnk st.w host
    if get_bit st.seen host = 1 then some (st, term, [])
    else
      match reduce rfuel cfuel st.w host slen with
      | none => none
      | some (w1, term1) =>
        let st1 : NSt := ⟨w1, set_bit st.seen host⟩
        let locs := rec_locs_of w1 term1 slen
        if 2 ≤ locs.length ∧ locs.length ≤ slen then
          let space := slen / locs.length
          match normal_go rfuel cfuel f st1 (GoM.fks locs.tail (sidx + space) space) with
          | none => none
          | some (st2, _, results) =>
            match normal_go rfuel cfuel f st2 (GoM.one (locs.headD 0) sidx space) with
            | none => none
            | some (st3, r0, _) =>
              let st4 : NSt := ⟨link st3.w (locs.headD 0) r0, st3.seen⟩
              match normal_go rfuel cfuel f st4 (GoM.jns term1 results 1) with
              | none => none
              | some (st5, _, _) => some (st5, term1, [])
        else
          match normal_go rfuel cfuel f st1 (GoM.seq locs sidx slen) with
          | none => none
          | some (st2, _, _) => some (st2, term1, [])
  | f+1, st, GoM.seq locs sidx slen =>
    match locs with
    | [] => some (st, 0, [])
    | l :: ls =>
      match normal_go rfuel cfuel f st (GoM.one l sidx slen) with
      | none => none
      | some (st1, r, _) =>
        let st2 : NSt := ⟨link st1.w l r, st1.seen⟩
        normal_go rfuel cfuel f st2 (GoM.seq ls sidx slen)
  | f+1, st, GoM.fks locs sidx space =>
    match locs with
    | [] => some (st, 0, [])
    | l :: ls =>
      match normal_go rfuel cfuel f st (GoM.one l sidx space) with
      | none => none
      | some (st1, r, _) =>
        match normal_go rfuel cfuel f st1 (GoM.fks ls (sidx + space) space) with
        | none => none
        | some (st2, _, rs) => some (st2, 0, r :: rs)
  | f+1, st, GoM.jns term acc i =>
    match acc with
    | [] => some (st, 0, [])
    | r :: rs =>
      let st1 : NSt := ⟨link st.w (get_loc term i) r, st.seen⟩
      normal_go rfuel cfuel f st1 (GoM.jns term rs (i+1))

/-- The `while (1)` loop of `normal` (C lines 1383-1391): re-initialize the
seen bitmap, run `normal_go(mem, host, 0, 1)`, and stop as soon as a pass
leaves the (calling worker's) cost unchanged. -/
def normal_loop (gfuel rfuel cfuel host : Nat) : Nat → NSt → Nat → Option (NSt × Ptr)
  | 0, _, _ => none
  | f+1, st, cost =>
    let st0 : NSt := ⟨st.w, fun _ => 0⟩
    match normal_go rfuel cfuel gfuel st0 (GoM.one host 0 1) with
    | none => none
    | some (st1, done, _) =>
      if st1.w.cost ≠ cost then normal_loop gfuel rfuel cfuel host f st1 st1.w.cost
      else some (st1, done)

/-- `Ptr normal(Worker* mem, u64 host, u64 sidx, u64 slen)`
(C lines 1373-1393). -/
def normal (gfuel rfuel cfuel lfuel : Nat) (mem : Worker) (host sidx slen : Nat) :
    Option (NSt × Ptr) :=
  let st0 : NSt := ⟨mem, fun _ => 0⟩
  match normal_go rfuel cfuel gfuel st0 (GoM.one host sidx slen) with
  | none => none
  | some (st1, _, _) => normal_loop gfuel rfuel cfuel host lfuel st1 st1.w.cost

/-! ## Readback (C lines 1532-1755). -/

/-- `u64 stk_find(Stk* stk, u64 val)` (C lines 218-225): index of the first
occurrence scanning from slot 0, else `(u64) -1`.  Lists model the stack's
`data` array in index order here. -/
def stk_find_go (v : Nat) : List Nat → Nat → Nat
  | [], _ => U64M - 1
  | x :: xs, i => if x = v then i else stk_find_go v xs (i + 1)

def stk_find (l : List Nat) (v : Nat) : Nat := stk_find_go v l 0

/-- `void readback_decimal_go(Stk* chrs, u64 n)` (C lines 1590-1596), as the
list of pushed bytes; the fuel only bounds the digit count and never runs out
when it is at least `n + 1`. -/
def readback_decimal_go : Nat → Nat → List Nat
  | 0, _ => []
  | f+1, n => if n > 0 then readback_decimal_go f (n / 10) ++ [48 + n % 10] else []

/-- `void readback_decimal(Stk* chrs, u64 n)` (C lines 1598-1604). -/
def readback_decimal (n : Nat) : List Nat :=
  if n = 0 then [48] else readback_decimal_go (n + 1) n

/-- The operator glyphs pushed by the OP2 case (C lines 1660-1677). -/
def op2_symbol (o : Nat) : List Nat :=
  if o = ADD then [43] else if o = SUB then [45] else if o = MUL then [42]
  else if o = DIV then [47] else if o = MOD then [37] else if o = AND then [38]
  else if o = OR then [124] else if o = XOR then [94] else if o = SHL then [60, 60]
  else if o = SHR then [62, 62] else if o = LTN then [60] else if o = LTE then [60, 61]
  else if o = EQL then [61, 61] else if o = GTE then [62, 61] else if o = GTN then [62]
  else if o = NEQ then [33, 61] else []

/-- Readback state: the output character stack `chrs` (in print order) and the
per-color direction stacks `dirs` (head = most recently pushed). -/
structure RSt where
  chrs : List Nat
  dirs : Nat → List Nat

/-- Append bytes to the output. -/
def push_chr (st : RSt) (cs : List Nat) : RSt := { st with chrs := st.chrs ++ cs }

/-- `void readback_term(Stk* chrs, Worker* mem, Ptr term, Stk* vars, Stk* dirs,
char** id_to_name_data, u64 id_to_name_mcap)` (C lines 1606-1717), with fuel
(`none` = fuel ran out; the C recursion can diverge on cyclic graphs).
`Sum.inr (term, i)` is the argument loop of the CTR/FUN case. -/
def readback_term (mem : Worker) (vars : List Nat) (names : Nat → Option (List Nat))
    (mcap : Nat) : Nat → RSt → (Ptr ⊕ (Ptr × Nat)) → Option RSt
  | 0, _, _ => none
  | f+1, st, Sum.inr (term, i) =>
    if i < ask_ari mem term then
      (readback_term mem vars names mcap f (push_chr st [32])
          (Sum.inl (ask_arg mem term i))).bind fun st1 =>
        readback_term mem vars names mcap f st1 (Sum.inr (term, i + 1))
    else some st
  | f+1, st, Sum.inl term =>
    let t := get_tag term
    if t = LAM then
      -- C lines 1609-1620: '@', then '_' or 'x<n>', then ' ', then the body
      let st1 :=
        if get_tag (ask_arg mem term 0) = ERA then push_chr st [64, 95]
        else push_chr st ([64, 120] ++ readback_decimal (stk_find vars (Var (get_loc term 0))))
      readback_term mem vars names mcap f (push_chr st1 [32]) (Sum.inl (ask_arg mem term 1))
    else if t = APP then
      (readback_term mem vars names mcap f (push_chr st [40])
          (Sum.inl (ask_arg mem term 0))).bind fun st1 =>
        (readback_term mem vars names mcap f (push_chr st1 [32])
            (Sum.inl (ask_arg mem term 1))).map fun st2 => push_chr st2 [41]
    else if t = SUP then
      -- C lines 1629-1648
      let col := get_ext term
      if 0 < (st.dirs col).length then
        let head := (st.dirs col).headD 0
        let stP : RSt := { st with dirs := updF st.dirs col (st.dirs col).tail }
        if head = 0 then
          (readback_term mem vars names mcap f stP (Sum.inl (ask_arg mem term 0))).map
            fun st1 => { st1 with dirs := updF st1.dirs col (head :: st1.dirs col) }
        else
          (readback_term mem vars names mcap f stP (Sum.inl (ask_arg mem term 1))).map
            fun st1 => { st1 with dirs := updF st1.dirs col (head :: st1.dirs col) }
      else
        (readback_term mem vars names mcap f (push_chr st [60])
            (Sum.inl (ask_arg mem term 0))).bind fun st1 =>
          (readback_term mem vars names mcap f (push_chr st1 [32])
              (Sum.inl (ask_arg mem term 1))).map fun st2 => push_chr st2 [62]
    else if t = DP0 ∨ t = DP1 then
      -- C lines 1649-1656: push the direction, recurse into the subject, pop
      let col := get_ext term
      let st1 : RSt := { st with dirs := updF st.dirs col ((if t = DP0 then 0 else 1) :: st.dirs col) }
      (readback_term mem vars names mcap f st1 (Sum.inl (ask_arg mem term 2))).map
        fun st2 => { st2 with dirs := updF st2.dirs col (st2.dirs col).tail }
    else if t = OP2 then
      (readback_term mem vars names mcap f (push_chr st [40])
          (Sum.inl (ask_arg mem term 0))).bind fun st1 =>
        (readback_term mem vars names mcap f (push_chr st1 (op2_symbol (get_ext term)))
            (Sum.inl (ask_arg mem term 1))).map fun st2 => push_chr st2 [41]
    else if t = NUM then some (push_chr st (readback_decimal (get_num term)))
    else if t = CTR ∨ t = FUN then
      -- C lines 1688-1706
      let func := get_ext term
      let st1 :=
        match (if func < mcap then names func else none) with
        | some cs => push_chr st ([40] ++ cs)
        | none => push_chr st ([40, 36] ++ readback_decimal func)
      (readback_term mem vars names mcap f st1 (Sum.inr (term, 0))).map
        fun st2 => push_chr st2 [41]
    else if t = VAR then some (push_chr st ([120] ++ readback_decimal (stk_find vars term)))
    else some (push_chr st [63])

/-- The index of the `'\0'` store in the C-string generation of `readback`
(C line 1746): `code_data[chrs.size < code_mcap ? chrs.size : code_mcap]`. -/
def terminator_index (len mcap : Nat) : Nat := if len < mcap then len else mcap

/-- All stores into `code_data` performed by the C-string generation of
`readback` (C lines 1743-1746): the copy loop writes indices
`0 ≤ i < min (chrs.size) code_mcap`, then one `'\0'` store at
`terminator_index`. -/
def readback_copy_writes (chrs : List Nat) (mcap : Nat) : List (Nat × Nat) :=
  (List.range (min chrs.length mcap)).map (fun i => (i, chrs.getD i 0))
    ++ [(terminator_index chrs.length mcap, 0)]

/-! ## CLI argument decoding (C lines 1787-1793). -/

/-- Model of the C library `strtol(code, 0, 10)` on a string whose first
character is a decimal digit (the only situation in which `parse_arg` calls
it): the value of the longest initial digit run, clamped to `LONG_MAX`
(2^63 - 1) on overflow, per the C standard's specification of `strtol`. -/
def strtol_dec (code : List Nat) : Nat :=
  min ((code.takeWhile (fun c => decide (48 ≤ c ∧ c ≤ 57))).foldl
        (fun acc d => acc * 10 + (d - 48)) 0)
      (2 ^ 63 - 1)

/-- `Ptr parse_arg(char* code, ...)` (C lines 1787-1793), on the byte list of
the NUL-terminated argument (`code.headD 0` is `code[0]`, with 0 = `'\0'` for
the empty string). -/
def parse_arg (code : List Nat) : Ptr :=
  if 48 ≤ code.headD 0 ∧ code.headD 0 ≤ 57 then Num (strtol_dec code) else Num 0

/-! ## Color generation (C line 1471 and `gen_dupk`). -/

/-- `workers[t].dups = MAX_DUPS * t / MAX_WORKERS` (C line 1471). -/
def dups_init (t : Nat) : Nat := MAX_DUPS * t / MAX_WORKERS

/-- A worker as initialized by `ffi_normal` (C lines 1463-1481), keeping the
fields relevant to color generation; worker `t > 0` starts with `size = 0`. -/
def worker_seeded (t : Nat) : Worker :=
  { tid := t, node := fun _ => Nil, lock := fun _ => false, size := 0,
    free := fun _ => [], cost := 0, dups := dups_init t, aris := fun _ => 0, funs := 0 }

/-- The worker state after `k` calls to `gen_dupk`. -/
def dups_after (mem : Worker) : Nat → Worker
  | 0 => mem
  | k+1 => (gen_dupk (dups_after mem k)).2

/-- The color returned by the `k`-th (0-based) `gen_dupk` call on `mem`. -/
def nth_color (mem : Worker) (k : Nat) : Nat := (gen_dupk (dups_after mem k)).1

/-- The end of worker `t`'s color seed range: the next worker's seed, or
`MAX_DUPS` for the last worker. -/
def seed_cap (t : Nat) : Nat :=
  if t + 1 < MAX_WORKERS then dups_init (t + 1) else MAX_DUPS

/-! ## Full normal form.
`nf_at mem fuel slot` decides, structurally, that the sub-graph whose head
link sits in heap slot `slot` is in full normal form: no interaction rule of
§4.4 applies at any reachable position — APP whose function is not LAM/SUP,
OP2 whose operands are neither a NUM pair nor SUP, DP0/DP1 whose shared
subject's head matches no DUP rule, and FUN nodes whose arguments match none
of the generated rewrite arms (`Main` always rewrites, so a `Main` node is
never normal) — and every child position is again in normal form. -/
def nf_at (mem : Worker) : Nat → Nat → Bool
  | 0, _ => false
  | f+1, slot =>
    let term := ask_lnk mem slot
    let t := get_tag term
    if t = NUM ∨ t = VAR ∨ t = ERA then true
    else if t = LAM then nf_at mem f (get_loc term 1)
    else if t = APP then
      let ft := get_tag (ask_arg mem term 0)
      decide (ft ≠ LAM ∧ ft ≠ SUP) && nf_at mem f (get_loc term 0)
        && nf_at mem f (get_loc term 1)
    else if t = SUP then nf_at mem f (get_loc term 0) && nf_at mem f (get_loc term 1)
    else if t = DP0 ∨ t = DP1 then
      let s := get_tag (ask_arg mem term 2)
      decide (s ≠ LAM ∧ s ≠ SUP ∧ s ≠ NUM ∧ s ≠ CTR ∧ s ≠ ERA)
        && nf_at mem f (get_loc term 2)
    else if t = OP2 then
      let a0 := get_tag (ask_arg mem term 0)
      let a1 := get_tag (ask_arg mem term 1)
      decide (¬(a0 = NUM ∧ a1 = NUM) ∧ a0 ≠ SUP ∧ a1 ≠ SUP)
        && nf_at mem f (get_loc term 0) && nf_at mem f (get_loc term 1)
    else if t = CTR then
      (List.range (ask_ari mem term)).all (fun i => nf_at mem f (get_loc term i))
    else if t = FUN then
      let fn := get_ext term
      if fn = GENTREE_ then
        let a := get_tag (ask_arg mem term 0)
        decide (a ≠ SUP ∧ a ≠ NUM ∧ a ≠ CTR)
          && (List.range (ask_ari mem term)).all (fun i => nf_at mem f (get_loc term i))
      else if fn = FFT_ then
        let a0 := ask_arg mem term 0
        decide (get_tag a0 ≠ SUP ∧ ¬(get_tag a0 = CTR ∧ (get_ext a0 = 31 ∨ get_ext a0 = 30)))
          && (List.range (ask_ari mem term)).all (fun i => nf_at mem f (get_loc term i))
      else if fn = MAIN_ then false
      else if fn = ADDRIGHTLEAF_ ∨ fn = ADDLEFTLEAF_ then
        let a1 := ask_arg mem term 1
        decide (get_tag a1 ≠ SUP ∧ ¬(get_tag a1 = CTR ∧ (get_ext a1 = 31 ∨ get_ext a1 = 30)))
          && (List.range (ask_ari mem term)).all (fun i => nf_at mem f (get_loc term i))
      else (List.range (ask_ari mem term)).all (fun i => nf_at mem f (get_loc term i))
    else true

/-! ## Concrete instances used by the theorems below. -/

/-- Build a heap from the finite list of its first words; all other words hold
`Nil` (a tag no rule inspects), standing for never-written memory. -/
def heap_of (l : List Nat) : Nat → Nat := fun i => l.getD i Nil

/-- A worker over a concrete initial heap: empty free lists, zero cost and
dup counter, heap frontier just past the given words. -/
def mk_worker (tid : Nat) (heap : List Nat) (aris : Nat → Nat) (funs : Nat) : Worker :=
  { tid := tid, node := heap_of heap, lock := fun _ => false, size := heap.length,
    free := fun _ => [], cost := 0, dups := 0, aris := aris, funs := funs }

/-- The id→arity table built by `main` (C lines 1850-1876).  Entries the C
code leaves uninitialized (including indices 10..27) are modelled as 0; no
theorem below reads them. -/
def aris_fft : Nat → Nat := fun i =>
  if i = 0 then 2 else if i = 1 then 2 else if i = 2 then 0 else if i = 3 then 2
  else if i = 4 then 1 else if i = 5 then 1 else if i = 6 then 2 else if i = 7 then 3
  else if i = 8 then 3 else if i = 9 then 2 else if i = 28 then 1 else if i = 29 then 2
  else if i = 30 then 2 else if i = 31 then 1 else if i = 32 then 1 else if i = 33 then 2
  else if i = 34 then 2 else if i = 35 then 1 else if i = 36 then 2 else if i = 37 then 2
  else if i = 38 then 2 else if i = 39 then 3 else if i = 40 then 2 else if i = 41 then 2
  else if i = 42 then 2 else 0

/-- C7's failing input: the root is `(^ String.nil String.nil)` — a stuck OP2
whose operands are nullary constructors, a graph in full normal form — while
the word just past the 2-word OP2 node (address 3, unreachable from the root)
holds a β-redex `((λ_ 7) 9)` left over in memory. -/
def w_c7 : Worker :=
  mk_worker 0 [Op2 XOR 1, Ctr 0 2 0, Ctr 0 2 0, App 4, Lam 6, Num 9, Era, Num 7]
    aris_fft 43

/-- A worker whose head is an OP2 ADD redex on NUM operands (C1 witness). -/
def w_c1w : Worker := mk_worker 0 [Op2 ADD 1, Num 3, Num 4] aris_fft 43

/-- A worker whose head is an OP2 DIV redex with divisor 0 (C1
counterexample). -/
def w_c1c : Worker := mk_worker 0 [Op2 DIV 1, Num 1, Num 0] aris_fft 43

/-- A worker whose frontier has reached the end of its partition (C2). -/
def w_c2c : Worker :=
  { mk_worker 0 [] (fun _ => 0) 0 with size := MEM_SPACE }

/-- A worker with a free-list entry of size 2 at address 5 (C2 witness). -/
def w_c2h : Worker :=
  { mk_worker 0 [] (fun _ => 0) 0 with free := updF (fun _ => []) 2 [5] }

/-- A SUP of color 3 over two numbers (C3). -/
def w_c3 : Worker := mk_worker 0 [Par 3 1, Num 5, Num 6] aris_fft 43

/-- The graph `λx.x` at the root: `Lam` at 1, binder slot holding `Arg 2`,
and the body occurrence `Var 1` at address 2 (C5). -/
def w_c5 : Worker := mk_worker 0 [Lam 1, Arg 2, Var 1] (fun _ => 0) 0

/-- An annihilating DUP-SUP configuration (C6): the DP0 link of color 7 lives
at address 5; its 3-word dup block is at 1 (occurrence back-pointers `Arg 8`,
`Arg 9`, subject `{11 22}` of the same color at 6). -/
def w_c6 : Worker :=
  mk_worker 0 [Nil, Arg 8, Arg 9, Par 7 6, Nil, Dp0 7 1, Num 11, Num 22, Nil, Nil]
    aris_fft 43

/-- A FUN node whose id 100 lies outside the 43-entry arity table (C9). -/
def w_c9 : Worker := mk_worker 0 [Cal 0 100 0] aris_fft 43

/-- A worker holding just the number 12345 (C4: its readback is five bytes). -/
def w_c4 : Worker := mk_worker 0 [Num 12345] aris_fft 43

/-! ## The back-pointer invariant (spec §3.4, §8; decided by `link`'s
`get_tag(lnk) <= VAR` test). -/

/-- A variable-class link: DP0, DP1 or VAR (the tags at or below `VAR`),
exactly the test `get_tag(lnk) <= VAR` in `link`. -/
def is_var_class (lnk : Ptr) : Bool := get_tag lnk ≤ VAR

/-- The heap address of the binder slot a variable-class link points into:
slot 1 of its target for DP1, slot 0 for DP0/VAR — the address `link` writes
`Arg(loc)` to. -/
def binder_slot_addr (lnk : Ptr) : Nat :=
  get_loc lnk (if get_tag lnk = DP1 then 1 else 0)

/-- The back-pointer invariant over a heap: every variable-class link stored
at address `A` has `Arg A` in the binder slot it targets. -/
def back_ptr_inv (h : Nat → Nat) : Prop :=
  ∀ A, is_var_class (h A) = true → h (binder_slot_addr (h A)) = Arg A

/-- The *mathematical* result of the 16 operators, written from the claim's
words (not from the code): arithmetic truncated modulo 2^60 — subtraction as
the integer difference reduced modulo 2^60 — division/modulo/shifts as exact
arithmetic on naturals, bitwise operators as such, comparisons as 0/1.  The
C1 theorem compares the code's `op2_num` against this. -/
def op2_math (ope a b : Nat) : Nat :=
  if ope = ADD then (a + b) % 2 ^ 60
  else if ope = SUB then (((a : Int) - (b : Int)) % 2 ^ 60).toNat
  else if ope = MUL then a * b % 2 ^ 60
  else if ope = DIV then a / b
  else if ope = MOD then a % b
  else if ope = AND then a &&& b
  else if ope = OR then a ||| b
  else if ope = XOR then a ^^^ b
  else if ope = SHL then a * 2 ^ b % 2 ^ 60
  else if ope = SHR then a / 2 ^ b
  else if ope = LTN then (if a < b then 1 else 0)
  else if ope = LTE then (if a ≤ b then 1 else 0)
  else if ope = EQL then (if a = b then 1 else 0)
  else if ope = GTE then (if b ≤ a then 1 else 0)
  else if ope = GTN then (if b < a then 1 else 0)
  else if ope = NEQ then (if a ≠ b then 1 else 0)
  else 0

/-! # Theorems

First, arithmetic about the packed link fields; then the claims. -/

theorem testBit_false_of_lt {b k i : Nat} (hb : b < 2 ^ k) (hik : k ≤ i) :
    Nat.testBit b i = false := by
  apply Nat.testBit_lt_two_pow
  exact lt_of_lt_of_le hb (Nat.pow_le_pow_right (by norm_num) hik)

/-- Bit-or of a field shifted past `k` bits with a `k`-bit value is addition:
the C link constructors pack disjoint fields with `|`. -/
theorem lor_field (k a b : Nat) (hb : b < 2 ^ k) : a * 2 ^ k ||| b = a * 2 ^ k + b := by
  apply Nat.eq_of_testBit_eq
  intro i
  rw [Nat.testBit_lor]
  rcases lt_or_le i k with hik | hik
  · have hsplit : a * 2 ^ k = a * 2 ^ (k - i - 1) * 2 * 2 ^ i := by
      rw [mul_assoc, mul_assoc, ← pow_succ', ← pow_add]
      congr 2
      omega
    have h1 : Nat.testBit (a * 2 ^ k) i = false := by
      rw [Nat.testBit_to_div_mod, hsplit, Nat.mul_div_cancel _ (Nat.two_pow_pos i)]
      simp [Nat.mul_mod_left]
    have h2 : Nat.testBit (a * 2 ^ k + b) i = Nat.testBit b i := by
      rw [Nat.testBit_to_div_mod, Nat.testBit_to_div_mod, hsplit, add_comm,
        Nat.add_mul_div_right _ _ (Nat.two_pow_pos i), Nat.add_mul_mod_self_right]
    rw [h1, h2, Bool.false_or]
  · have h0 : Nat.testBit b i = false := testBit_false_of_lt hb hik
    have hdd : (2 : Nat) ^ i = 2 ^ k * 2 ^ (i - k) := by
      rw [← pow_add]; congr 1; omega
    have h1 : Nat.testBit (a * 2 ^ k) i = Nat.testBit (a * 2 ^ k + b) i := by
      rw [Nat.testBit_to_div_mod, Nat.testBit_to_div_mod, hdd,
        ← Nat.div_div_eq_div_mul, ← Nat.div_div_eq_div_mul,
        Nat.mul_div_cancel _ (Nat.two_pow_pos k), add_comm,
        Nat.add_mul_div_right _ _ (Nat.two_pow_pos k), Nat.div_eq_of_lt hb, Nat.zero_add]
    rw [h0, Bool.or_false, h1]

theorem and_num_mask (x : Nat) : x &&& NUM_MASK = x % 2 ^ 60 := by
  have h : NUM_MASK = 2 ^ 60 - 1 := by norm_num [NUM_MASK]
  rw [h, Nat.and_pow_two_sub_one_eq_mod]

theorem and_val_mask (x : Nat) : x &&& 0xFFFFFFFF = x % 2 ^ 32 := by
  have h : (0xFFFFFFFF : Nat) = 2 ^ 32 - 1 := by norm_num
  rw [h, Nat.and_pow_two_sub_one_eq_mod]

theorem and_ext_mask (x : Nat) : x &&& 0xFFFFFF = x % 2 ^ 24 := by
  have h : (0xFFFFFF : Nat) = 2 ^ 24 - 1 := by norm_num
  rw [h, Nat.and_pow_two_sub_one_eq_mod]

theorem get_num_lt (x : Ptr) : get_num x < 2 ^ 60 := by
  rw [get_num]
  have h : (0xFFFFFFFFFFFFFFF : Nat) = 2 ^ 60 - 1 := by norm_num
  rw [h, Nat.and_pow_two_sub_one_eq_mod]
  exact Nat.mod_lt _ (by norm_num)

/-- `Num` decodes as tag NUM. -/
theorem get_tag_num (v : Nat) : get_tag (Num v) = NUM := by
  have hm : v &&& NUM_MASK < 2 ^ 60 := by
    rw [and_num_mask]; exact Nat.mod_lt _ (by norm_num)
  rw [Num, get_tag, TAG, show (0x1000000000000000 : Nat) = 2 ^ 60 by norm_num,
    lor_field 60 NUM _ hm, mul_comm, Nat.mul_add_div (by norm_num), Nat.div_eq_of_lt hm, Nat.add_zero]

/-- `Num` truncates its argument to the low 60 bits. -/
theorem get_num_num (v : Nat) : get_num (Num v) = v % 2 ^ 60 := by
  have hm : v &&& NUM_MASK < 2 ^ 60 := by
    rw [and_num_mask]; exact Nat.mod_lt _ (by norm_num)
  rw [Num, get_num, show (0xFFFFFFFFFFFFFFF : Nat) = 2 ^ 60 - 1 by norm_num,
    Nat.and_pow_two_sub_one_eq_mod, TAG,
    show (0x1000000000000000 : Nat) = 2 ^ 60 by norm_num,
    lor_field 60 NUM _ hm, mul_comm, Nat.mul_add_mod, Nat.mod_eq_of_lt hm, and_num_mask]

/-- `Arg` decodes as tag ARG with its address, for addresses below 2^32. -/
theorem get_tag_arg {p : Nat} (hp : p < 2 ^ 32) : get_tag (Arg p) = ARG := by
  have hp60 : p < 2 ^ 60 := lt_of_lt_of_le hp (by norm_num)
  rw [Arg, get_tag, TAG, show (0x1000000000000000 : Nat) = 2 ^ 60 by norm_num,
    lor_field 60 ARG _ hp60, mul_comm, Nat.mul_add_div (by norm_num), Nat.div_eq_of_lt hp60, Nat.add_zero]

theorem get_val_arg {p : Nat} (hp : p < 2 ^ 32) : get_val (Arg p) = p := by
  have hp60 : p < 2 ^ 60 := lt_of_lt_of_le hp (by norm_num)
  rw [Arg, get_val, and_val_mask, TAG, show (0x1000000000000000 : Nat) = 2 ^ 60 by norm_num,
    lor_field 60 ARG _ hp60, show ARG * 2 ^ 60 = (ARG * 2 ^ 28) * 2 ^ 32 by ring,
    Nat.mul_add_mod' _ _ _, Nat.mod_eq_of_lt hp]

/-! ## C2 — alloc -/

/-- C2 counterexample: a worker of tid 0 whose frontier offset has reached
`MEM_SPACE` (the size of one partition), with an empty free list.  The claim
says an allocation that would cross the partition boundary fails; instead
`alloc` succeeds, returns the first address of worker 1's partition
(`1 * MEM_SPACE`), and bumps the frontier past the boundary. -/
theorem c2_counterexample :
    (alloc w_c2c 2).1 = 1 * MEM_SPACE ∧
    MEM_SPACE ≤ (alloc w_c2c 2).1 ∧
    (alloc w_c2c 2).2.size = MEM_SPACE + 2 := by
  refine ⟨by decide, by decide, by decide⟩

/-- C2 (amended): `alloc(size)` returns 0 for `size = 0`; pops the per-size
free list when it is non-empty; otherwise bumps the worker's frontier by
`size` words and returns `tid·MEM_SPACE +` the old frontier offset,
unconditionally — no partition-boundary check is made. -/
theorem c2_alloc_amended (mem : Worker) (size : Nat) :
    (size = 0 → alloc mem size = (0, mem)) ∧
    (∀ r rest, size ≠ 0 → mem.free size = r :: rest →
      alloc mem size = (r, { mem with free := updF mem.free size rest })) ∧
    (size ≠ 0 → mem.free size = [] →
      alloc mem size = (mem.tid * MEM_SPACE + mem.size, { mem with size := mem.size + size })) := by
  refine ⟨fun h0 => by simp [alloc, h0], fun r rest h0 hf => by simp [alloc, h0, hf],
    fun h0 hf => by simp [alloc, h0, hf]⟩

/-- C2 witness: the three branches of the amended statement at concrete
inputs (`w_c2h` has the free-list entry 5 for size 2 and nothing else). -/
theorem c2_alloc_amended_witness :
    alloc w_c2h 0 = (0, w_c2h) ∧
    alloc w_c2h 2 = (5, { w_c2h with free := updF w_c2h.free 2 [] }) ∧
    alloc w_c2h 3 = (w_c2h.tid * MEM_SPACE + w_c2h.size, { w_c2h with size := w_c2h.size + 3 }) := by
  refine ⟨(c2_alloc_amended w_c2h 0).1 rfl,
    (c2_alloc_amended w_c2h 2).2.1 5 [] (by decide) (by decide),
    (c2_alloc_amended w_c2h 3).2.2 (by decide) (by decide)⟩

/-! ## C4 — readback truncation -/

/-- C4: reading back the term `12345` produces five bytes; with an output
capacity of 4 the C-string generation copies the first 4 bytes to indices
0..3 and then stores the terminating `'\0'` at index 4 — that is, at offset
`code_mcap`, one past the last valid byte of the `code_mcap`-byte buffer.
The claim that the terminator always lands inside the buffer fails; the copy
loop itself never exceeds the capacity. -/
theorem c4_terminator_past_capacity :
    (readback_term w_c4 [] (fun _ => none) 43 10 ⟨[], fun _ => []⟩
        (Sum.inl (ask_lnk w_c4 0))).map (fun st => readback_copy_writes st.chrs 4) =
      some [(0, 49), (1, 50), (2, 51), (3, 52), (4, 0)] ∧
    terminator_index 5 4 = 4 ∧ ¬ terminator_index 5 4 < 4 := by
  refine ⟨by decide, by decide, by decide⟩

/-! ## C8 — color generation -/

theorem dups_after_dups (mem : Worker) : ∀ k, (dups_after mem k).dups = mem.dups + k := by
  intro k
  induction k with
  | zero => rfl
  | succ k ih => simp [dups_after, gen_dupk, ih]; omega

/-- The k-th color drawn from a worker is its dup counter plus k, reduced
modulo 2^24. -/
theorem nth_color_eq (mem : Worker) (k : Nat) :
    nth_color mem k = (mem.dups + k) % 2 ^ 24 := by
  rw [nth_color, gen_dupk, dups_after_dups, and_ext_mask]

/-- C8 counterexample: worker 0 (seeded 0) and worker 1 (seeded
`MAX_DUPS/12 = 1398101`) return the same 24-bit color — worker 0's
1398102-nd `gen_dupk` call collides with worker 1's first, because the
monotone counter runs past the next worker's seed with no bound. -/
theorem c8_counterexample :
    nth_color (worker_seeded 0) 1398101 = nth_color (worker_seeded 1) 0 := by
  rw [nth_color_eq, nth_color_eq]
  decide

theorem dups_init_mono {a b : Nat} (h : a ≤ b) : dups_init a ≤ dups_init b :=
  Nat.div_le_div_right (Nat.mul_le_mul_left _ h)

theorem seed_cap_le (t : Nat) : seed_cap t ≤ MAX_DUPS := by
  rw [seed_cap]
  split
  · calc MAX_DUPS * (t + 1) / MAX_WORKERS
        ≤ MAX_DUPS * MAX_WORKERS / MAX_WORKERS :=
          Nat.div_le_div_right (Nat.mul_le_mul_left _ (by omega))
      _ = MAX_DUPS := Nat.mul_div_cancel _ (by norm_num [MAX_WORKERS])
  · exact Nat.le_refl _

/-- C8 (amended): the per-worker seeds partition the 24-bit color space, so
two distinct workers' colors differ as long as each worker's call count keeps
its counter below the next seed (`seed_cap`); beyond that bound collisions
occur (see the counterexample). -/
theorem c8_colors_disjoint (t t' i j : Nat) (ht : t < MAX_WORKERS) (ht' : t' < MAX_WORKERS)
    (hne : t ≠ t') (hi : dups_init t + i < seed_cap t) (hj : dups_init t' + j < seed_cap t') :
    nth_color (worker_seeded t) i ≠ nth_color (worker_seeded t') j := by
  have hseed : ∀ s : Nat, (worker_seeded s).dups = dups_init s := fun s => rfl
  have h2 : (2 : Nat) ^ 24 = MAX_DUPS := by norm_num [MAX_DUPS]
  rw [nth_color_eq, nth_color_eq, hseed, hseed, h2,
    Nat.mod_eq_of_lt (lt_of_lt_of_le hi (seed_cap_le t)),
    Nat.mod_eq_of_lt (lt_of_lt_of_le hj (seed_cap_le t'))]
  have key : ∀ a b x : Nat, a < b → b < MAX_WORKERS → dups_init a + x < seed_cap a →
      dups_init a + x < dups_init b := by
    intro a b x hab hb hx
    have hsucc : a + 1 < MAX_WORKERS := by omega
    have : seed_cap a = dups_init (a + 1) := by rw [seed_cap, if_pos hsucc]
    calc dups_init a + x < seed_cap a := hx
    _ = dups_init (a + 1) := this
    _ ≤ dups_init b := dups_init_mono (by omega)
  rcases Nat.lt_or_ge t t' with hlt | hge
  · have h1 := key t t' i hlt ht' hi
    omega
  · have hlt' : t' < t := by omega
    have h1 := key t' t j hlt' ht hj
    omega

/-- C8 witness: workers 0 and 1, first call each. -/
theorem c8_colors_disjoint_witness :
    (0 : Nat) ≠ 1 ∧ dups_init 0 + 0 < seed_cap 0 ∧ dups_init 1 + 0 < seed_cap 1 ∧
    nth_color (worker_seeded 0) 0 ≠ nth_color (worker_seeded 1) 0 :=
  ⟨by decide, by decide, by decide,
    c8_colors_disjoint 0 1 0 0 (by decide) (by decide) (by decide) (by decide) (by decide)⟩

/-! ## C10 — parse_arg -/

/-- C10: `parse_arg` yields `Num (strtol code)` exactly when the first byte is
a decimal digit and `Num 0` otherwise; `"12abc"` decodes to 12, `"-5"` to 0,
and every decoded value carries tag NUM with its payload truncated to the low
60 bits by the `Num` constructor. -/
theorem c10_parse_arg :
    (∀ code : List Nat,
      parse_arg code =
        if 48 ≤ code.headD 0 ∧ code.headD 0 ≤ 57 then Num (strtol_dec code) else Num 0) ∧
    parse_arg [49, 50, 97, 98, 99] = Num 12 ∧
    parse_arg [45, 53] = Num 0 ∧
    (∀ code : List Nat, get_tag (parse_arg code) = NUM ∧
      get_num (parse_arg code) =
        (if 48 ≤ code.headD 0 ∧ code.headD 0 ≤ 57 then strtol_dec code else 0) % 2 ^ 60) := by
  refine ⟨fun code => rfl, by decide, by decide, fun code => ⟨?_, ?_⟩⟩
  · rw [parse_arg]
    split
    · exact get_tag_num _
    · exact get_tag_num _
  · rw [parse_arg]
    split
    · rw [get_num_num]
    · rw [get_num_num]

/-! ## C5 — link and the back-pointer invariant -/

theorem updF_self {α : Type} (f : Nat → α) (k : Nat) (v : α) : updF f k v k = v := by
  simp [updF]

theorem updF_other {α : Type} (f : Nat → α) (k : Nat) (v : α) {x : Nat} (hx : x ≠ k) :
    updF f k v x = f x := by
  simp [updF, hx]

/-- `link`'s heap effect for a non-variable link: a single store at `loc`. -/
theorem link_node_not_var (mem : Worker) (loc : Nat) (lnk : Ptr)
    (h : ¬ get_tag lnk ≤ VAR) : (link mem loc lnk).node = hset mem.node loc lnk := by
  simp [link, h]

/-- `link`'s heap effect for a variable-class link: the store at `loc` plus the
back-pointer `Arg loc` into the binder slot. -/
theorem link_node_var (mem : Worker) (loc : Nat) (lnk : Ptr)
    (h : get_tag lnk ≤ VAR) :
    (link mem loc lnk).node =
      hset (hset mem.node loc lnk) (binder_slot_addr lnk) (Arg loc) := by
  simp [link, h, binder_slot_addr]

/-- Only the heap changes: tid, free lists, cost, dups, arity table are
untouched by `link`. -/
theorem link_fields (mem : Worker) (loc : Nat) (lnk : Ptr) :
    (link mem loc lnk).cost = mem.cost ∧ (link mem loc lnk).free = mem.free ∧
    (link mem loc lnk).size = mem.size ∧ (link mem loc lnk).dups = mem.dups := by
  rw [link]
  split <;> exact ⟨rfl, rfl, rfl, rfl⟩

theorem w_c5_vars : ∀ A, is_var_class (w_c5.node A) = true → A = 2 := by
  intro A h
  match A with
  | 0 => exact absurd h (by decide)
  | 1 => exact absurd h (by decide)
  | 2 => rfl
  | (n+3) =>
    exfalso
    have hnil : w_c5.node (n+3) = Nil := by
      show ([Lam 1, Arg 2, Var 1].getD (n+3) Nil) = Nil
      apply List.getD_eq_default
      simp
    rw [hnil] at h
    exact absurd h (by decide)

theorem w_c5_inv : back_ptr_inv w_c5.node := by
  intro A h
  have hA := w_c5_vars A h
  subst hA
  decide

/-- C5 counterexample: on the heap of `λx.x` (root `Lam` at 0, binder slot 1
holding `Arg 2`, body occurrence `Var 1` at 2) the back-pointer invariant
holds; the call `link(1, Num 7)` overwrites the binder slot of the live
variable — the variable at address 2 is still the lambda's body, yet its
binder slot now holds `Num 7`, not `Arg 2`.  So the claim's "after every link
call, every live variable-class link has Arg(A) in its binder slot" fails. -/
theorem c5_counterexample :
    back_ptr_inv w_c5.node ∧
    get_tag (w_c5.node 0) = LAM ∧ get_loc (w_c5.node 0) 1 = 2 ∧
    is_var_class ((link w_c5 1 (Num 7)).node 2) = true ∧
    ¬ back_ptr_inv (link w_c5 1 (Num 7)).node := by
  refine ⟨w_c5_inv, by decide, by decide, by decide, ?_⟩
  intro h
  have h2 := h 2 (by decide)
  revert h2
  decide

/-- C5 (amended): `link(loc, lnk)` stores `lnk` at `loc` and, when `lnk` is a
variable-class link, stores `Arg loc` into the binder slot of `lnk`'s target
(slot 1 for DP1, slot 0 for DP0/VAR), touching no other address.  The global
back-pointer invariant is preserved by every `link` call whose two written
addresses are not the binder slot of a different live variable; it can break
otherwise (see the counterexample). -/
theorem c5_link_amended (mem : Worker) (loc : Nat) (lnk : Ptr) :
    (is_var_class lnk = false →
      ∀ x, (link mem loc lnk).node x = if x = loc then lnk else mem.node x) ∧
    (is_var_class lnk = true →
      (link mem loc lnk).node (binder_slot_addr lnk) = Arg loc ∧
      ∀ x, x ≠ binder_slot_addr lnk →
        (link mem loc lnk).node x = if x = loc then lnk else mem.node x) ∧
    (loc < 2 ^ 32 →
      back_ptr_inv mem.node →
      (∀ A, A ≠ loc → is_var_class (mem.node A) = true →
        binder_slot_addr (mem.node A) ≠ loc ∧
        (is_var_class lnk = true → binder_slot_addr (mem.node A) ≠ binder_slot_addr lnk)) →
      back_ptr_inv (link mem loc lnk).node) := by
  refine ⟨?_, ?_, ?_⟩
  · intro hnv x
    have h : ¬ get_tag lnk ≤ VAR := by simpa [is_var_class] using hnv
    rw [link_node_not_var mem loc lnk h]
    by_cases hx : x = loc
    · subst hx; rw [hset, updF_self, if_pos rfl]
    · rw [hset, updF_other _ _ _ hx, if_neg hx]
  · intro hv
    have h : get_tag lnk ≤ VAR := by simpa [is_var_class] using hv
    rw [link_node_var mem loc lnk h]
    refine ⟨by rw [hset, updF_self], ?_⟩
    intro x hxT
    rw [hset, updF_other _ _ _ hxT]
    by_cases hx : x = loc
    · subst hx; rw [hset, updF_self, if_pos rfl]
    · rw [hset, updF_other _ _ _ hx, if_neg hx]
  · intro hloc hinv hdisj
    by_cases hv : is_var_class lnk = true
    · have h : get_tag lnk ≤ VAR := by simpa [is_var_class] using hv
      have hr : ∀ x, (link mem loc lnk).node x =
          if x = binder_slot_addr lnk then Arg loc
          else if x = loc then lnk else mem.node x := by
        intro x
        rw [link_node_var mem loc lnk h, hset, hset]
        by_cases h1 : x = binder_slot_addr lnk
        · rw [if_pos h1, h1, updF_self]
        · rw [if_neg h1, updF_other _ _ _ h1]
          by_cases h2 : x = loc
          · rw [if_pos h2, h2, updF_self]
          · rw [if_neg h2, updF_other _ _ _ h2]
      intro A hA
      rw [hr A] at hA
      by_cases h1 : A = binder_slot_addr lnk
      · rw [if_pos h1] at hA
        exfalso
        rw [is_var_class, get_tag_arg hloc] at hA
        exact absurd hA (by decide)
      · rw [if_neg h1] at hA
        by_cases h2 : A = loc
        · rw [if_pos h2] at hA
          rw [hr A, if_neg h1, if_pos h2, hr (binder_slot_addr lnk), if_pos rfl, h2]
        · rw [if_neg h2] at hA
          obtain ⟨hS1, hS2⟩ := hdisj A h2 hA
          rw [hr A, if_neg h1, if_neg h2, hr (binder_slot_addr (mem.node A)),
            if_neg (hS2 hv), if_neg hS1]
          exact hinv A hA
    · have h : ¬ get_tag lnk ≤ VAR := by
        intro hc
        exact hv (by simpa [is_var_class] using hc)
      have hr : ∀ x, (link mem loc lnk).node x =
          if x = loc then lnk else mem.node x := by
        intro x
        rw [link_node_not_var mem loc lnk h, hset]
        by_cases h2 : x = loc
        · rw [if_pos h2, h2, updF_self]
        · rw [if_neg h2, updF_other _ _ _ h2]
      intro A hA
      rw [hr A] at hA
      by_cases h2 : A = loc
      · rw [if_pos h2] at hA
        exact absurd hA hv
      · rw [if_neg h2] at hA
        obtain ⟨hS1, _⟩ := hdisj A h2 hA
        rw [hr A, if_neg h2, hr (binder_slot_addr (mem.node A)), if_neg hS1]
        exact hinv A hA

/-- C5 witness: on the `λx.x` heap, `link(5, Num 3)` (a store at a fresh
address) writes only address 5 and preserves the invariant. -/
theorem c5_link_amended_witness :
    back_ptr_inv (link w_c5 5 (Num 3)).node ∧
    (link w_c5 5 (Num 3)).node 5 = Num 3 ∧ (link w_c5 5 (Num 3)).node 1 = Arg 2 := by
  have h := c5_link_amended w_c5 5 (Num 3)
  refine ⟨?_, ?_, ?_⟩
  · apply h.2.2 (by decide) w_c5_inv
    intro A hA hvar
    have hA2 := w_c5_vars A hvar
    subst hA2
    exact ⟨by decide, fun hfalse => absurd hfalse (by decide)⟩
  · have h1 := h.1 (by decide) 5
    simpa using h1
  · have h1 := h.1 (by decide) 1
    simp at h1
    rw [h1]
    decide

/-! ## C1 — OP2 on NUM operands -/

/-- The OP2-NUM ascent step: at an ascent iteration whose host holds an OP2
link with two NUM operands, one loop iteration computes `op2_num`, recycles
the 2-word node, stores `Num c` at the host and goes to the stack pop. -/
theorem op2_num_step (cfuel slen root host : Nat) (mem : Worker) (stack : List Nat) (c : Nat)
    (hT : get_tag (ask_lnk mem host) = OP2)
    (h0 : get_tag (ask_arg mem (ask_lnk mem host) 0) = NUM)
    (h1 : get_tag (ask_arg mem (ask_lnk mem host) 1) = NUM)
    (hc : op2_num (get_ext (ask_lnk mem host)) (get_num (ask_arg mem (ask_lnk mem host) 0))
        (get_num (ask_arg mem (ask_lnk mem host) 1)) = some c) :
    reduce_iter cfuel slen root mem stack 0 host =
      some (pop_out root (link (clear (inc_cost mem) (get_loc (ask_lnk mem host) 0) 2)
        host (Num c)) stack) := by
  rw [reduce_iter]
  simp only [hT, h0, h1, hc, OP2, APP, DP0, DP1, NUM, FUN]
  norm_num

/-- The code's u64-and-mask arithmetic agrees with the mathematical results,
given the partiality side conditions for division, modulo and shifts. -/
theorem op2_num_eq_math (o a b : Nat) (ha : a < 2 ^ 60) (hb : b < 2 ^ 60) (hop : o < 16)
    (hdiv : o = DIV ∨ o = MOD → b ≠ 0) (hsh : o = SHL ∨ o = SHR → b < 64) :
    op2_num o a b = some (op2_math o a b) := by
  have hU : U64M = 2 ^ 64 := by norm_num [U64M]
  have hdvd : (2 : Nat) ^ 60 ∣ 2 ^ 64 := pow_dvd_pow 2 (by norm_num)
  interval_cases o
  · simp only [op2_num, op2_math, ADD, SUB, MUL, DIV, MOD, AND, OR, XOR, SHL, SHR, LTN, LTE, EQL, GTE, GTN, NEQ]
    norm_num
    rw [and_num_mask, hU, Nat.mod_mod_of_dvd _ hdvd]
    norm_num
  · simp only [op2_num, op2_math, ADD, SUB, MUL, DIV, MOD, AND, OR, XOR, SHL, SHR, LTN, LTE, EQL, GTE, GTN, NEQ]
    norm_num
    rw [and_num_mask, hU, Nat.mod_mod_of_dvd _ hdvd]
    omega
  · simp only [op2_num, op2_math, ADD, SUB, MUL, DIV, MOD, AND, OR, XOR, SHL, SHR, LTN, LTE, EQL, GTE, GTN, NEQ]
    norm_num
    rw [and_num_mask, hU, Nat.mod_mod_of_dvd _ hdvd]
    norm_num
  · have hb0 : b ≠ 0 := hdiv (Or.inl rfl)
    simp only [op2_num, op2_math, ADD, SUB, MUL, DIV, MOD, AND, OR, XOR, SHL, SHR, LTN, LTE, EQL, GTE, GTN, NEQ, if_neg hb0]
    norm_num
    rw [and_num_mask, Nat.mod_eq_of_lt (lt_of_le_of_lt (Nat.div_le_self a b) ha)]
  · have hb0 : b ≠ 0 := hdiv (Or.inr rfl)
    simp only [op2_num, op2_math, ADD, SUB, MUL, DIV, MOD, AND, OR, XOR, SHL, SHR, LTN, LTE, EQL, GTE, GTN, NEQ, if_neg hb0]
    norm_num
    rw [and_num_mask, Nat.mod_eq_of_lt (lt_of_le_of_lt (Nat.mod_le a b) ha)]
  · simp only [op2_num, op2_math, ADD, SUB, MUL, DIV, MOD, AND, OR, XOR, SHL, SHR, LTN, LTE, EQL, GTE, GTN, NEQ]
    norm_num
    rw [and_num_mask, Nat.mod_eq_of_lt (lt_of_le_of_lt Nat.and_le_left ha)]
  · simp only [op2_num, op2_math, ADD, SUB, MUL, DIV, MOD, AND, OR, XOR, SHL, SHR, LTN, LTE, EQL, GTE, GTN, NEQ]
    norm_num
    rw [and_num_mask, Nat.mod_eq_of_lt (Nat.or_lt_two_pow ha hb)]
  · simp only [op2_num, op2_math, ADD, SUB, MUL, DIV, MOD, AND, OR, XOR, SHL, SHR, LTN, LTE, EQL, GTE, GTN, NEQ]
    norm_num
    rw [and_num_mask, Nat.mod_eq_of_lt (Nat.xor_lt_two_pow ha hb)]
  · have hb64 : ¬ 64 ≤ b := by
      have := hsh (Or.inl rfl)
      omega
    simp only [op2_num, op2_math, ADD, SUB, MUL, DIV, MOD, AND, OR, XOR, SHL, SHR, LTN, LTE, EQL, GTE, GTN, NEQ, if_neg hb64]
    norm_num
    rw [Nat.shiftLeft_eq, and_num_mask, hU, Nat.mod_mod_of_dvd _ hdvd]
    norm_num
  · have hb64 : ¬ 64 ≤ b := by
      have := hsh (Or.inr rfl)
      omega
    simp only [op2_num, op2_math, ADD, SUB, MUL, DIV, MOD, AND, OR, XOR, SHL, SHR, LTN, LTE, EQL, GTE, GTN, NEQ, if_neg hb64]
    norm_num
    rw [Nat.shiftRight_eq_div_pow, and_num_mask,
      Nat.mod_eq_of_lt (lt_of_le_of_lt (Nat.div_le_self a _) ha)]
  · simp only [op2_num, op2_math, ADD, SUB, MUL, DIV, MOD, AND, OR, XOR, SHL, SHR, LTN, LTE, EQL, GTE, GTN, NEQ]
    norm_num
  · simp only [op2_num, op2_math, ADD, SUB, MUL, DIV, MOD, AND, OR, XOR, SHL, SHR, LTN, LTE, EQL, GTE, GTN, NEQ]
    norm_num
  · simp only [op2_num, op2_math, ADD, SUB, MUL, DIV, MOD, AND, OR, XOR, SHL, SHR, LTN, LTE, EQL, GTE, GTN, NEQ]
    norm_num
  · simp only [op2_num, op2_math, ADD, SUB, MUL, DIV, MOD, AND, OR, XOR, SHL, SHR, LTN, LTE, EQL, GTE, GTN, NEQ]
    norm_num
  · simp only [op2_num, op2_math, ADD, SUB, MUL, DIV, MOD, AND, OR, XOR, SHL, SHR, LTN, LTE, EQL, GTE, GTN, NEQ]
    norm_num
  · simp only [op2_num, op2_math, ADD, SUB, MUL, DIV, MOD, AND, OR, XOR, SHL, SHR, LTN, LTE, EQL, GTE, GTN, NEQ]
    norm_num

/-- C1 (amended): at an ascent reduce step whose host holds an OP2 node with
two NUM operands, a single loop iteration replaces the node by
`Num (op2_math o a b)` — the mathematical result truncated modulo 2^60, or
0/1 for comparisons — increments the rewrite cost and recycles the 2-word
node, provided `b ≠ 0` for DIV/MOD and `b < 64` for SHL/SHR; division or
modulo by zero and oversized shifts are undefined in the C code (see the
counterexample). -/
theorem c1_op2_num_amended (cfuel slen root host : Nat) (mem : Worker) (stack : List Nat)
    (hT : get_tag (ask_lnk mem host) = OP2)
    (h0 : get_tag (ask_arg mem (ask_lnk mem host) 0) = NUM)
    (h1 : get_tag (ask_arg mem (ask_lnk mem host) 1) = NUM)
    (hop : get_ext (ask_lnk mem host) < 16)
    (hdiv : get_ext (ask_lnk mem host) = DIV ∨ get_ext (ask_lnk mem host) = MOD →
      get_num (ask_arg mem (ask_lnk mem host) 1) ≠ 0)
    (hsh : get_ext (ask_lnk mem host) = SHL ∨ get_ext (ask_lnk mem host) = SHR →
      get_num (ask_arg mem (ask_lnk mem host) 1) < 64) :
    ∃ w' : Worker,
      op2_num (get_ext (ask_lnk mem host)) (get_num (ask_arg mem (ask_lnk mem host) 0))
          (get_num (ask_arg mem (ask_lnk mem host) 1)) =
        some (op2_math (get_ext (ask_lnk mem host)) (get_num (ask_arg mem (ask_lnk mem host) 0))
          (get_num (ask_arg mem (ask_lnk mem host) 1))) ∧
      reduce_iter cfuel slen root mem stack 0 host = some (pop_out root w' stack) ∧
      w'.node host =
        Num (op2_math (get_ext (ask_lnk mem host)) (get_num (ask_arg mem (ask_lnk mem host) 0))
          (get_num (ask_arg mem (ask_lnk mem host) 1))) ∧
      (∀ x, x ≠ host → w'.node x = mem.node x) ∧
      w'.cost = mem.cost + 1 ∧
      w'.free 2 = get_loc (ask_lnk mem host) 0 :: mem.free 2 := by
  have hmath := op2_num_eq_math (get_ext (ask_lnk mem host))
    (get_num (ask_arg mem (ask_lnk mem host) 0)) (get_num (ask_arg mem (ask_lnk mem host) 1))
    (get_num_lt _) (get_num_lt _) hop hdiv hsh
  refine ⟨link (clear (inc_cost mem) (get_loc (ask_lnk mem host) 0) 2) host
    (Num (op2_math (get_ext (ask_lnk mem host)) (get_num (ask_arg mem (ask_lnk mem host) 0))
      (get_num (ask_arg mem (ask_lnk mem host) 1)))), hmath,
    op2_num_step cfuel slen root host mem stack _ hT h0 h1 hmath, ?_, ?_, ?_, ?_⟩
  · rw [link_node_not_var _ _ _ (by rw [get_tag_num]; decide), hset, updF_self]
  · intro x hx
    rw [link_node_not_var _ _ _ (by rw [get_tag_num]; decide), hset, updF_other _ _ _ hx]
    rfl
  · rw [(link_fields _ _ _).1]
    rfl
  · rw [(link_fields _ _ _).2.1]
    show updF (inc_cost mem).free 2 (get_loc (ask_lnk mem host) 0 :: (inc_cost mem).free 2) 2 =
      get_loc (ask_lnk mem host) 0 :: mem.free 2
    rw [updF_self]
    rfl

/-- C1 counterexample: at an OP2 DIV node with operands `Num 1` and `Num 0`
— values representable in 60 bits, so inside the claim's scope — the reduce
step has no defined result at all (`a / b` with `b = 0` is undefined
behaviour in C; the process traps), so no `NUM c` replaces the node. -/
theorem c1_counterexample :
    get_tag (ask_lnk w_c1c 0) = OP2 ∧
    get_tag (ask_arg w_c1c (ask_lnk w_c1c 0) 0) = NUM ∧
    get_tag (ask_arg w_c1c (ask_lnk w_c1c 0) 1) = NUM ∧
    get_ext (ask_lnk w_c1c 0) = DIV ∧
    get_num (ask_arg w_c1c (ask_lnk w_c1c 0) 0) = 1 ∧
    get_num (ask_arg w_c1c (ask_lnk w_c1c 0) 1) = 0 ∧
    reduce_iter 5 1 0 w_c1c [] 0 0 = none := by
  refine ⟨by decide, by decide, by decide, by decide, by decide, by decide, by rfl⟩

/-- C1 witness: the ADD instance `3 + 4` on the concrete worker `w_c1w`. -/
theorem c1_op2_num_amended_witness :
    ∃ w' : Worker,
      op2_num (get_ext (ask_lnk w_c1w 0)) (get_num (ask_arg w_c1w (ask_lnk w_c1w 0) 0))
          (get_num (ask_arg w_c1w (ask_lnk w_c1w 0) 1)) =
        some (op2_math (get_ext (ask_lnk w_c1w 0)) (get_num (ask_arg w_c1w (ask_lnk w_c1w 0) 0))
          (get_num (ask_arg w_c1w (ask_lnk w_c1w 0) 1))) ∧
      reduce_iter 5 1 0 w_c1w [] 0 0 = some (pop_out 0 w' []) ∧
      w'.node 0 =
        Num (op2_math (get_ext (ask_lnk w_c1w 0)) (get_num (ask_arg w_c1w (ask_lnk w_c1w 0) 0))
          (get_num (ask_arg w_c1w (ask_lnk w_c1w 0) 1))) ∧
      w'.cost = w_c1w.cost + 1 := by
  obtain ⟨w', hm, hs, hn, _, hc, _⟩ :=
    c1_op2_num_amended 5 1 0 0 w_c1w [] (by decide) (by decide) (by decide) (by decide)
      (by decide) (by decide)
  exact ⟨w', hm, hs, hn, hc⟩

/-! ## C6 — DUP-SUP annihilation -/

/-- `link` on a non-variable value, as a whole-record equation. -/
theorem link_not_var_eq (mem : Worker) (loc : Nat) (lnk : Ptr) (h : ¬ get_tag lnk ≤ VAR) :
    link mem loc lnk = { mem with node := hset mem.node loc lnk } := by
  simp [link, h]

/-- `subst` on a non-ERA occurrence link is just `link` at the occurrence. -/
theorem subst_not_era (cfuel : Nat) (mem : Worker) (lnk val : Ptr) (h : get_tag lnk ≠ ERA) :
    subst cfuel mem lnk val = some (link mem (get_loc lnk 0) val) := by
  simp [subst, h]

/-- C6: when reduce ascends at a DP0 or DP1 link whose shared subject
(slot 2) is a SUP of the same color, one loop iteration annihilates: the
first projection's occurrence `r` receives the SUP's first argument, the
second projection's occurrence `s` its second argument, the host receives the
argument of the projection's own side, the 3-word dup block and the 2-word
SUP block go onto the size-3 and size-2 free lists, the cost counter is
incremented, no other address changes, and the loop re-descends at the host.
The occurrence/host/node addresses are assumed pairwise non-aliased, and the
SUP's arguments non-variable (so no back-pointer stores happen), which is the
configuration produced by well-formed graphs. -/
theorem c6_dup_sup_annihilate (cfuel slen root host : Nat) (mem : Worker) (stack : List Nat)
    (r s : Nat)
    (hT : get_tag (ask_lnk mem host) = DP0 ∨ get_tag (ask_lnk mem host) = DP1)
    (hA : get_tag (ask_arg mem (ask_lnk mem host) 2) = SUP)
    (hcol : get_ext (ask_lnk mem host) = get_ext (ask_arg mem (ask_lnk mem host) 2))
    (hs0 : ask_arg mem (ask_lnk mem host) 0 = Arg r)
    (hs1 : ask_arg mem (ask_lnk mem host) 1 = Arg s)
    (hr32 : r < 2 ^ 32) (hs32 : s < 2 ^ 32)
    (hav : VAR < get_tag (ask_arg mem (ask_arg mem (ask_lnk mem host) 2) 0))
    (hbv : VAR < get_tag (ask_arg mem (ask_arg mem (ask_lnk mem host) 2) 1))
    (h1 : get_val (ask_lnk mem host) + 1 ≠ r)
    (h2 : get_val (ask_arg mem (ask_lnk mem host) 2) + 1 ≠ r)
    (h3 : get_val (ask_arg mem (ask_lnk mem host) 2) ≠ r)
    (h4 : get_val (ask_arg mem (ask_lnk mem host) 2) ≠ s)
    (h5 : get_val (ask_arg mem (ask_lnk mem host) 2) + 1 ≠ s)
    (hrs : r ≠ s) (hrh : r ≠ host) (hsh : s ≠ host) :
    ∃ w' : Worker,
      reduce_iter cfuel slen root mem stack 0 host = some (Step.cont w' stack 1 host) ∧
      w'.node r = ask_arg mem (ask_arg mem (ask_lnk mem host) 2) 0 ∧
      w'.node s = ask_arg mem (ask_arg mem (ask_lnk mem host) 2) 1 ∧
      w'.node host = (if get_tag (ask_lnk mem host) = DP0
        then ask_arg mem (ask_arg mem (ask_lnk mem host) 2) 0
        else ask_arg mem (ask_arg mem (ask_lnk mem host) 2) 1) ∧
      w'.cost = mem.cost + 1 ∧
      w'.free 3 = get_val (ask_lnk mem host) :: mem.free 3 ∧
      w'.free 2 = get_val (ask_arg mem (ask_lnk mem host) 2) :: mem.free 2 ∧
      (∀ x, x ≠ r → x ≠ s → x ≠ host → w'.node x = mem.node x) := by
  have hna : ¬ (get_tag (ask_arg mem (ask_arg mem (ask_lnk mem host) 2) 0) ≤ VAR) :=
    Nat.not_le.mpr hav
  have hnb : ¬ (get_tag (ask_arg mem (ask_arg mem (ask_lnk mem host) 2) 1) ≤ VAR) :=
    Nat.not_le.mpr hbv
  have htr : get_tag (Arg r) = ARG := get_tag_arg hr32
  have hvr : get_val (Arg r) = r := get_val_arg hr32
  have hts : get_tag (Arg s) = ARG := get_tag_arg hs32
  have hvs : get_val (Arg s) = s := get_val_arg hs32
  simp only [ask_arg, ask_lnk, get_loc, Nat.add_zero, VAR, SUP] at hs0 hs1 hA hcol hav hbv hna hnb h1 h2 h3 h4 h5 ⊢
  rcases hT with hT | hT
  all_goals simp only [ask_lnk] at hT
  · -- DP0 side
    refine ⟨{ mem with
        node := hset (hset (hset mem.node r
            (mem.node (get_val (mem.node (get_val (mem.node host) + 2))))) s
            (mem.node (get_val (mem.node (get_val (mem.node host) + 2)) + 1))) host
            (mem.node (get_val (mem.node (get_val (mem.node host) + 2)))),
        cost := mem.cost + 1,
        free := updF (updF mem.free 3 (get_val (mem.node host) :: mem.free 3)) 2
          (get_val (mem.node (get_val (mem.node host) + 2))
            :: updF mem.free 3 (get_val (mem.node host) :: mem.free 3) 2) }, ?_, ?_, ?_, ?_,
      rfl, ?_, ?_, ?_⟩
    · rw [reduce_iter]
      simp only [ask_arg, ask_lnk, get_loc, Nat.add_zero, inc_cost, clear, subst, link, hset,
        updF, hT, hA, hcol, hs0, hs1, htr, hvr, hts, hvs, hna, hnb,
        h1, h2, h3, h4, h5, hrs, hrh, hsh,
        DP0, DP1, APP, SUP, LAM, NUM, CTR, ERA, ARG, VAR, OP2, FUN, reduceIte]
      norm_num [updF, hset, h1, h2, h3, h4, h5, hs0, hs1, htr, hts, hvr, hvs, ARG, ERA,
        hna, hnb, hrs, hrh, hsh]
    · simp only [hset, updF, hrs, hrh, if_neg, reduceIte]
    · simp [hset, updF, hsh]
    · simp [hset, updF, hT, DP0]
    · simp [updF]
    · simp [updF]
    · intro x hxr hxs hxh
      simp [hset, updF, hxr, hxs, hxh]
  · -- DP1 side
    refine ⟨{ mem with
        node := hset (hset (hset mem.node r
            (mem.node (get_val (mem.node (get_val (mem.node host) + 2))))) s
            (mem.node (get_val (mem.node (get_val (mem.node host) + 2)) + 1))) host
            (mem.node (get_val (mem.node (get_val (mem.node host) + 2)) + 1)),
        cost := mem.cost + 1,
        free := updF (updF mem.free 3 (get_val (mem.node host) :: mem.free 3)) 2
          (get_val (mem.node (get_val (mem.node host) + 2))
            :: updF mem.free 3 (get_val (mem.node host) :: mem.free 3) 2) }, ?_, ?_, ?_, ?_,
      rfl, ?_, ?_, ?_⟩
    · rw [reduce_iter]
      simp only [ask_arg, ask_lnk, get_loc, Nat.add_zero, inc_cost, clear, subst, link, hset,
        updF, hT, hA, hcol, hs0, hs1, htr, hvr, hts, hvs, hna, hnb,
        h1, h2, h3, h4, h5, hrs, hrh, hsh,
        DP0, DP1, APP, SUP, LAM, NUM, CTR, ERA, ARG, VAR, OP2, FUN, reduceIte]
      norm_num [updF, hset, h1, h2, h3, h4, h5, hs0, hs1, htr, hts, hvr, hvs, ARG, ERA,
        hna, hnb, hrs, hrh, hsh]
    · simp [hset, updF, hrs, hrh]
    · simp [hset, updF, hsh]
    · simp [hset, updF, hT, DP0, DP1]
    · simp [updF]
    · simp [updF]
    · intro x hxr hxs hxh
      simp [hset, updF, hxr, hxs, hxh]

theorem c6_dup_sup_annihilate_witness :
    (get_tag (ask_lnk w_c6 5) = DP0 ∨ get_tag (ask_lnk w_c6 5) = DP1) ∧
    ∃ w' : Worker,
      reduce_iter 5 1 0 w_c6 [] 0 5 = some (Step.cont w' [] 1 5) ∧
      w'.node 8 = ask_arg w_c6 (ask_arg w_c6 (ask_lnk w_c6 5) 2) 0 ∧
      w'.node 9 = ask_arg w_c6 (ask_arg w_c6 (ask_lnk w_c6 5) 2) 1 ∧
      w'.node 5 = (if get_tag (ask_lnk w_c6 5) = DP0
        then ask_arg w_c6 (ask_arg w_c6 (ask_lnk w_c6 5) 2) 0
        else ask_arg w_c6 (ask_arg w_c6 (ask_lnk w_c6 5) 2) 1) ∧
      w'.cost = w_c6.cost + 1 ∧
      w'.free 3 = get_val (ask_lnk w_c6 5) :: w_c6.free 3 ∧
      w'.free 2 = get_val (ask_arg w_c6 (ask_lnk w_c6 5) 2) :: w_c6.free 2 ∧
      (∀ x, x ≠ 8 → x ≠ 9 → x ≠ 5 → w'.node x = w_c6.node x) :=
  ⟨Or.inl (by decide),
    c6_dup_sup_annihilate 5 1 0 5 w_c6 [] 8 9 (Or.inl (by decide)) (by decide) (by decide)
      (by decide) (by decide) (by decide) (by decide) (by decide) (by decide)
      (by decide) (by decide) (by decide) (by decide) (by decide) (by decide)
      (by decide) (by decide)⟩

/-! ## C9 — unknown function ids are stuck -/

/-- C9: a link whose `ext` id lies at or beyond the arity table's size gets
arity 0 from `ask_ari`; a FUN node with such an id (past every generated rule
id, all of which are below 35) matches no STEP_0 or STEP_1 arm, so `reduce`
returns it unchanged at zero cost, and `normal` terminates with the stuck
term in place, the heap and the cost counter untouched. -/
theorem c9_unknown_fun_stuck (rfuel cfuel gfuel lfuel host : Nat) (mem : Worker)
    (hh : host < 2 ^ 32)
    (hT : get_tag (ask_lnk mem host) = FUN)
    (hf : mem.funs ≤ get_ext (ask_lnk mem host))
    (h35 : 35 ≤ mem.funs) :
    ask_ari mem (ask_lnk mem host) = 0 ∧
    reduce (rfuel + 1) cfuel mem host 1 = some (mem, ask_lnk mem host) ∧
    normal (gfuel + 2) (rfuel + 1) cfuel (lfuel + 1) mem host 0 1 =
      some (⟨mem, set_bit (fun _ => 0) host⟩, ask_lnk mem host) := by
  have hfn : 35 ≤ get_ext (ask_lnk mem host) := le_trans h35 hf
  have hari : ask_ari mem (ask_lnk mem host) = 0 := by
    rw [ask_ari]
    exact if_neg (Nat.not_lt.mpr hf)
  have hg1 : ¬ (get_ext (ask_lnk mem host) = 29) := by omega
  have hg2 : ¬ (get_ext (ask_lnk mem host) = 32) := by omega
  have hg3 : ¬ (get_ext (ask_lnk mem host) = 28) := by omega
  have hg4 : ¬ (get_ext (ask_lnk mem host) = 33) := by omega
  have hg5 : ¬ (get_ext (ask_lnk mem host) = 34) := by omega
  have hmask : host &&& 0xFFFFFFFF = host := by
    rw [and_val_mask]
    exact Nat.mod_eq_of_lt hh
  have hiter : reduce_iter cfuel 1 host mem [] 1 host =
      some (Step.done mem (ask_lnk mem host)) := by
    rw [reduce_iter]
    simp only [hT, hg1, hg2, hg3, hg4, hg5, hari,
      FUN, APP, DP0, DP1, OP2, GENTREE_, FFT_, MAIN_, ADDRIGHTLEAF_, ADDLEFTLEAF_,
      pop_out, reduceIte]
    norm_num
  have hred : reduce (rfuel + 1) cfuel mem host 1 = some (mem, ask_lnk mem host) := by
    rw [reduce, hmask, reduce_run, hiter]
  have hlocs : rec_locs_of mem (ask_lnk mem host) 1 = [] := by
    rw [rec_locs_of]
    simp only [hT, hari, FUN, APP, DP0, DP1, OP2, LAM, SUP, CTR, reduceIte]
    norm_num
  have hbit : get_bit (fun _ => (0 : Nat)) host = 0 := by
    simp [get_bit]
  have hgo : ∀ b : Nat → Nat, get_bit b host = 0 →
      normal_go (rfuel + 1) cfuel (gfuel + 2) ⟨mem, b⟩ (GoM.one host 0 1) =
        some (⟨mem, set_bit b host⟩, ask_lnk mem host, []) := by
    intro b hb
    rw [normal_go]
    simp only [hb, hred, hlocs, normal_go, List.length_nil, reduceIte]
    norm_num
  refine ⟨hari, hred, ?_⟩
  rw [normal]
  simp only [hgo (fun _ => 0) hbit, normal_loop]
  simp

theorem c9_unknown_fun_stuck_witness :
    (0 : Nat) < 2 ^ 32 ∧
    ask_ari w_c9 (ask_lnk w_c9 0) = 0 ∧
    reduce 1 5 w_c9 0 1 = some (w_c9, ask_lnk w_c9 0) ∧
    normal 2 1 5 1 w_c9 0 0 1 = some (⟨w_c9, set_bit (fun _ => 0) 0⟩, ask_lnk w_c9 0) :=
  ⟨by decide,
    c9_unknown_fun_stuck 0 5 0 0 0 w_c9 (by decide) (by decide) (by decide) (by decide)⟩


/-! ## C7 — normal on an already-normal graph -/

/-- C7: refuted as stated.  The graph of `w_c7` at root 0 is in full normal form
(`nf_at` checks exactly that no reduce rule applies anywhere), root link an
OP2 of two constructors, yet one `normal` call performs a rewrite: the missing
`break` after `case OP2:` in `normal_go` falls through to the CTR/FUN child
count `ask_ari(mem, term)`, which for the XOR opcode (7) reads arity 3 from the
table and makes the normalizer recurse into the word after the OP2 node, where
an unrelated redex sits; the cost counter ends at 1, not 0. -/
theorem c7_normal_rewrites_nf_graph :
    nf_at w_c7 20 0 = true ∧
    (normal 60 50 5 3 w_c7 0 0 1).map (fun r => r.1.w.cost) = some 1 := by decide

/-! ## C3 — SUP readback and the direction stacks -/

theorem push_chr_dirs (st : RSt) (cs : List Nat) : (push_chr st cs).dirs = st.dirs := rfl

theorem updF_updF {α : Type} (f : Nat → α) (k : Nat) (v w : α) :
    updF (updF f k v) k w = updF f k w := by
  funext x
  by_cases h : x = k <;> simp [updF, h]

theorem updF_eq_self {α : Type} (f : Nat → α) (k : Nat) :
    updF f k (f k) = f := by
  funext x
  by_cases h : x = k <;> simp [updF, h]

/-- Every successful `readback_term` call restores the direction stacks of
every color: SUP pops then pushes back, DP0/DP1 pushes then pops, every other
case leaves `dirs` alone. -/
theorem readback_dirs_preserved (mem : Worker) (vars : List Nat)
    (names : Nat → Option (List Nat)) (mcap : Nat) :
    ∀ f st m st', readback_term mem vars names mcap f st m = some st' →
      st'.dirs = st.dirs := by
  intro f
  induction f with
  | zero =>
    intro st m st' h
    simp [readback_term] at h
  | succ f ih =>
    intro st m st' h
    match m with
    | Sum.inr (term, i) =>
      rw [readback_term] at h
      by_cases hi : i < ask_ari mem term
      · rw [if_pos hi] at h
        rcases Option.bind_eq_some.mp h with ⟨st1, h1, h2⟩
        rw [ih _ _ _ h2, ih _ _ _ h1, push_chr_dirs]
      · rw [if_neg hi] at h
        injection h with h
        rw [← h]
    | Sum.inl term =>
      simp only [readback_term] at h
      split_ifs at h
      -- LAM, binder erased
      · rw [ih _ _ _ h, push_chr_dirs, push_chr_dirs]
      -- LAM, named binder
      · rw [ih _ _ _ h, push_chr_dirs, push_chr_dirs]
      -- APP
      · rcases Option.bind_eq_some.mp h with ⟨st1, h1, h2⟩
        rcases Option.map_eq_some'.mp h2 with ⟨st2, h3, heq⟩
        rw [← heq, push_chr_dirs, ih _ _ _ h3, push_chr_dirs, ih _ _ _ h1, push_chr_dirs]
      -- SUP, non-empty dirs, head 0
      · rename_i hsup hlen hhd
        rcases Option.map_eq_some'.mp h with ⟨st1, h1, heq⟩
        rw [← heq]
        show updF st1.dirs _ _ = st.dirs
        rw [ih _ _ _ h1]
        have hcons : (st.dirs (get_ext term)).headD 0 :: (st.dirs (get_ext term)).tail =
            st.dirs (get_ext term) := by
          rcases hl : st.dirs (get_ext term) with _ | ⟨a, as⟩
          · rw [hl] at hlen
            simp at hlen
          · simp
        simp only [updF_updF, updF_self]
        rw [hcons, updF_eq_self]
      -- SUP, non-empty dirs, head 1
      · rename_i hsup hlen hhd
        rcases Option.map_eq_some'.mp h with ⟨st1, h1, heq⟩
        rw [← heq]
        show updF st1.dirs _ _ = st.dirs
        rw [ih _ _ _ h1]
        have hcons : (st.dirs (get_ext term)).headD 0 :: (st.dirs (get_ext term)).tail =
            st.dirs (get_ext term) := by
          rcases hl : st.dirs (get_ext term) with _ | ⟨a, as⟩
          · rw [hl] at hlen
            simp at hlen
          · simp
        simp only [updF_updF, updF_self]
        rw [hcons, updF_eq_self]
      -- SUP, empty dirs
      · rcases Option.bind_eq_some.mp h with ⟨st1, h1, h2⟩
        rcases Option.map_eq_some'.mp h2 with ⟨st2, h3, heq⟩
        rw [← heq, push_chr_dirs, ih _ _ _ h3, push_chr_dirs, ih _ _ _ h1, push_chr_dirs]
      -- DP0
      · rcases Option.map_eq_some'.mp h with ⟨st2, h2, heq⟩
        rw [← heq]
        show updF st2.dirs _ _ = st.dirs
        rw [ih _ _ _ h2]
        simp only [updF_updF, updF_self, List.tail_cons, updF_eq_self]
      -- DP1
      · rcases Option.map_eq_some'.mp h with ⟨st2, h2, heq⟩
        rw [← heq]
        show updF st2.dirs _ _ = st.dirs
        rw [ih _ _ _ h2]
        simp only [updF_updF, updF_self, List.tail_cons, updF_eq_self]
      -- OP2
      · rcases Option.bind_eq_some.mp h with ⟨st1, h1, h2⟩
        rcases Option.map_eq_some'.mp h2 with ⟨st2, h3, heq⟩
        rw [← heq, push_chr_dirs, ih _ _ _ h3, push_chr_dirs, ih _ _ _ h1, push_chr_dirs]
      -- NUM
      · injection h with h
        rw [← h, push_chr_dirs]
      -- CTR/FUN, id inside the name table
      · rcases hnf : names (get_ext term) with _ | cs
        all_goals simp only [hnf] at h
        all_goals rcases Option.map_eq_some'.mp h with ⟨st2, h2, heq⟩
        all_goals rw [← heq, push_chr_dirs, ih _ _ _ h2, push_chr_dirs]
      -- CTR/FUN, id outside the name table
      · rcases Option.map_eq_some'.mp h with ⟨st2, h2, heq⟩
        rw [← heq, push_chr_dirs, ih _ _ _ h2, push_chr_dirs]
      -- VAR
      · injection h with h
        rw [← h, push_chr_dirs]
      -- default
      · injection h with h
        rw [← h, push_chr_dirs]

/-- C3: at a SUP node whose color has a non-empty direction stack,
`readback_term` prints only the child selected by the top of that stack
(0 the first argument, 1 the second), pushing no brackets, and every
successful call leaves every direction stack exactly as it was (so nested
fans see the unchanged stack); with an empty stack for that color it prints
the raw fan form: a `<`, the first child, a space, the second child, `>`. -/
theorem c3_sup_readback (mem : Worker) (vars : List Nat)
    (names : Nat → Option (List Nat)) (mcap f : Nat) (st st0 : RSt) (term : Ptr)
    (d : Nat) (l : List Nat)
    (hT : get_tag term = SUP)
    (hd : st.dirs (get_ext term) = d :: l)
    (he : st0.dirs (get_ext term) = []) :
    readback_term mem vars names mcap (f + 1) st (Sum.inl term) =
      (readback_term mem vars names mcap f
          { st with dirs := updF st.dirs (get_ext term) l }
          (Sum.inl (ask_arg mem term (if d = 0 then 0 else 1)))).map
        (fun st1 => { st1 with
          dirs := updF st1.dirs (get_ext term) (d :: st1.dirs (get_ext term)) }) ∧
    (∀ st', readback_term mem vars names mcap (f + 1) st (Sum.inl term) = some st' →
      st'.dirs = st.dirs) ∧
    readback_term mem vars names mcap (f + 1) st0 (Sum.inl term) =
      (readback_term mem vars names mcap f (push_chr st0 [60])
          (Sum.inl (ask_arg mem term 0))).bind
        (fun st1 => (readback_term mem vars names mcap f (push_chr st1 [32])
            (Sum.inl (ask_arg mem term 1))).map (fun st2 => push_chr st2 [62])) := by
  refine ⟨?_, ?_, ?_⟩
  · rw [readback_term]
    simp only [hT, hd, SUP, LAM, APP, DP0, DP1, OP2, NUM, CTR, FUN, VAR,
      List.length_cons, List.headD_cons, List.tail_cons, Nat.zero_lt_succ, reduceIte]
    by_cases hd0 : d = 0 <;> simp [hd0]
  · intro st' h
    exact readback_dirs_preserved mem vars names mcap (f + 1) st _ st' h
  · rw [readback_term]
    simp only [hT, he, SUP, LAM, APP, DP0, DP1, OP2, NUM, CTR, FUN, VAR,
      List.length_nil, reduceIte]
    norm_num

theorem c3_sup_readback_witness :
    (readback_term w_c3 [] (fun _ => none) 0 4 ⟨[], updF (fun _ => []) 3 [0]⟩
        (Sum.inl (ask_lnk w_c3 0))).map RSt.chrs = some [53] ∧
    (readback_term w_c3 [] (fun _ => none) 0 4 ⟨[], fun _ => []⟩
        (Sum.inl (ask_lnk w_c3 0))).map RSt.chrs = some [60, 53, 32, 54, 62] ∧
    (readback_term w_c3 [] (fun _ => none) 0 4 ⟨[], updF (fun _ => []) 3 [0]⟩
        (Sum.inl (ask_lnk w_c3 0)) =
      (readback_term w_c3 [] (fun _ => none) 0 3
          { (⟨[], updF (fun _ => []) 3 [0]⟩ : RSt) with
            dirs := updF (updF (fun _ => []) 3 [0]) (get_ext (ask_lnk w_c3 0)) [] }
          (Sum.inl (ask_arg w_c3 (ask_lnk w_c3 0) (if 0 = 0 then 0 else 1)))).map
        (fun st1 => { st1 with
          dirs := updF st1.dirs (get_ext (ask_lnk w_c3 0))
            (0 :: st1.dirs (get_ext (ask_lnk w_c3 0))) })) ∧
    (∀ st', readback_term w_c3 [] (fun _ => none) 0 4 ⟨[], updF (fun _ => []) 3 [0]⟩
        (Sum.inl (ask_lnk w_c3 0)) = some st' →
      st'.dirs = (⟨[], updF (fun _ => []) 3 [0]⟩ : RSt).dirs) :=
  ⟨by rfl, by rfl,
    (c3_sup_readback w_c3 [] (fun _ => none) 0 3 ⟨[], updF (fun _ => []) 3 [0]⟩
      ⟨[], fun _ => []⟩ (ask_lnk w_c3 0) 0 [] (by rfl) (by rfl) (by rfl)).1,
    (c3_sup_readback w_c3 [] (fun _ => none) 0 3 ⟨[], updF (fun _ => []) 3 [0]⟩
      ⟨[], fun _ => []⟩ (ask_lnk w_c3 0) 0 [] (by rfl) (by rfl) (by rfl)).2.1⟩

end HVM
